import Mathlib

/-!
Verification of `pystac/serialization/identify.py`.

This file gives a shallow embedding of the module: `STACVersionID` (orderable
version strings), `STACVersionRange` (narrowing interval), and the inference
engine `identify_stac_object_type` / `_identify_stac_extensions` /
`identify_stac_object` over a JSON document model.  Python dictionary / string
/ attribute semantics are modelled explicitly: fallible operations (`d[k]`,
`.startswith`, `.keys()`, iteration) return `Except PyErr`.  Theorems at the
end settle the specification claims.
-/

/-! ## Python string comparison

Python compares strings lexicographically by code point.  We embed this as a
Bool-valued comparison on the character data of a `String` (core `String.lt`'s
decision procedure does not reduce well in the kernel, so we carry our own). -/

def listLtb : List Char → List Char → Bool
  | [], [] => false
  | [], _ :: _ => true
  | _ :: _, [] => false
  | a :: as, b :: bs => if a < b then true else if b < a then false else listLtb as bs

def strLtb (a b : String) : Bool := listLtb a.data b.data

def strEqb (a b : String) : Bool := a == b

theorem listLtb_irrefl (l : List Char) : listLtb l l = false := by
  induction l with
  | nil => rfl
  | cons a as ih => simp [listLtb, lt_irrefl, ih]

theorem listLtb_trans {a b c : List Char} (h1 : listLtb a b = true)
    (h2 : listLtb b c = true) : listLtb a c = true := by
  induction a generalizing b c with
  | nil =>
    cases b with
    | nil => simp [listLtb] at h1
    | cons y ys =>
      cases c with
      | nil => simp [listLtb] at h2
      | cons z zs => simp [listLtb]
  | cons x xs ih =>
    cases b with
    | nil => simp [listLtb] at h1
    | cons y ys =>
      cases c with
      | nil => simp [listLtb] at h2
      | cons z zs =>
        simp only [listLtb] at h1 h2 ⊢
        rcases lt_trichotomy x y with hxy | hxy | hxy
        · rcases lt_trichotomy y z with hyz | hyz | hyz
          · simp [lt_trans hxy hyz]
          · subst hyz; simp [hxy]
          · simp [if_neg (lt_asymm hyz), if_pos hyz] at h2
        · subst hxy
          simp only [if_neg (lt_irrefl x)] at h1
          rcases lt_trichotomy x z with hxz | hxz | hxz
          · simp [hxz]
          · subst hxz
            simp only [if_neg (lt_irrefl x)] at h2 ⊢
            exact ih h1 h2
          · simp [if_neg (asymm hxz), if_pos hxz] at h2
        · simp [if_neg (lt_asymm hxy), if_pos hxy] at h1

theorem listLtb_asymm {a b : List Char} (h : listLtb a b = true) :
    listLtb b a = false := by
  induction a generalizing b with
  | nil =>
    cases b with
    | nil => simp [listLtb] at h
    | cons y ys => simp [listLtb]
  | cons x xs ih =>
    cases b with
    | nil => simp [listLtb] at h
    | cons y ys =>
      simp only [listLtb] at h ⊢
      rcases lt_trichotomy x y with hxy | hxy | hxy
      · simp [if_neg (lt_asymm hxy), if_pos hxy]
      · subst hxy
        simp only [if_neg (lt_irrefl x)] at h ⊢
        exact ih h
      · simp [if_neg (lt_asymm hxy), if_pos hxy] at h

theorem listLtb_conn {a b : List Char} (h1 : listLtb a b = false)
    (h2 : listLtb b a = false) : a = b := by
  induction a generalizing b with
  | nil =>
    cases b with
    | nil => rfl
    | cons y ys => simp [listLtb] at h1
  | cons x xs ih =>
    cases b with
    | nil => simp [listLtb] at h2
    | cons y ys =>
      simp only [listLtb] at h1 h2
      rcases lt_trichotomy x y with hxy | hxy | hxy
      · simp [hxy] at h1
      · subst hxy
        simp only [if_neg (lt_irrefl x)] at h1 h2
        rw [ih h1 h2]
      · simp [if_neg (lt_asymm hxy), if_pos hxy] at h2

theorem strLtb_irrefl (s : String) : strLtb s s = false := listLtb_irrefl _

theorem strLtb_trans {a b c : String} (h1 : strLtb a b = true)
    (h2 : strLtb b c = true) : strLtb a c = true := listLtb_trans h1 h2

theorem strLtb_asymm {a b : String} (h : strLtb a b = true) :
    strLtb b a = false := listLtb_asymm h

theorem strLtb_conn {a b : String} (h1 : strLtb a b = false)
    (h2 : strLtb b a = false) : a = b :=
  congrArg String.mk (listLtb_conn h1 h2)

/-! ## Splitting on a character

`STACVersionID.__init__` does `version_string.split('-')` and re-joins the
tail with `'-'.join(...)`.  We embed Python's `str.split` (single-character
separator) structurally. -/

def splitOnChar (c : Char) : List Char → List (List Char)
  | [] => [[]]
  | x :: xs =>
    if x = c then [] :: splitOnChar c xs
    else
      match splitOnChar c xs with
      | [] => [[x]]
      | h :: t => (x :: h) :: t

def joinWith (c : Char) : List (List Char) → List Char
  | [] => []
  | [x] => x
  | x :: xs => x ++ c :: joinWith c xs

theorem splitOnChar_ne_nil (c : Char) (l : List Char) : splitOnChar c l ≠ [] := by
  cases l with
  | nil => simp [splitOnChar]
  | cons x xs =>
    simp only [splitOnChar]
    split
    · simp
    · split <;> simp

theorem joinWith_splitOnChar (c : Char) (l : List Char) :
    joinWith c (splitOnChar c l) = l := by
  induction l with
  | nil => rfl
  | cons x xs ih =>
    simp only [splitOnChar]
    split
    · rename_i hx
      subst hx
      cases hs : splitOnChar x xs with
      | nil => exact absurd hs (splitOnChar_ne_nil x xs)
      | cons h t =>
        rw [hs] at ih
        simp [joinWith, ih]
    · cases hs : splitOnChar c xs with
      | nil => exact absurd hs (splitOnChar_ne_nil c xs)
      | cons h t =>
        rw [hs] at ih
        cases t with
        | nil => simpa [joinWith] using congrArg (x :: ·) ih
        | cons h2 t2 => simpa [joinWith] using congrArg (x :: ·) ih

/-! ## STACVersionID (identify.py lines 9-46) -/

structure STACVersionID where
  version_string : String
deriving DecidableEq, Repr

/-- `version_parts = version_string.split('-'); version_core = version_parts[0]` -/
def STACVersionID.version_core (v : STACVersionID) : String :=
  String.mk ((splitOnChar '-' v.version_string.data).headD [])

/-- `version_prerelease = None` if there was no `'-'`, else
`'-'.join(version_parts[1:])`. -/
def STACVersionID.version_prerelease (v : STACVersionID) : Option String :=
  match splitOnChar '-' v.version_string.data with
  | [_] => none
  | _ :: rest => some (String.mk (joinWith '-' rest))
  | [] => none

/-- `STACVersionID.__lt__`: compare cores by plain string order; on equal
cores a prereleased version is smaller than an unprereleased one, and two
prereleases compare by plain string order on the suffix
(`other.version_prerelease > self.version_prerelease`). -/
def STACVersionID.blt (self other : STACVersionID) : Bool :=
  if strLtb self.version_core other.version_core then true
  else if strLtb other.version_core self.version_core then false
  else
    match self.version_prerelease, other.version_prerelease with
    | none, _ => false
    | some _, none => true
    | some sp, some op => strLtb sp op

/-- `functools.total_ordering` derives `__le__` from `__lt__` and `__eq__`:
`a <= b` iff `a < b or a == b`, where `__eq__` compares full version strings. -/
def STACVersionID.ble (self other : STACVersionID) : Bool :=
  self.blt other || strEqb self.version_string other.version_string

theorem STACVersionID.reconstruct (v : STACVersionID) :
    v.version_string.data =
      v.version_core.data ++
        (match v.version_prerelease with
         | none => []
         | some p => '-' :: p.data) := by
  have hjoin := joinWith_splitOnChar '-' v.version_string.data
  unfold STACVersionID.version_core STACVersionID.version_prerelease
  cases hs : splitOnChar '-' v.version_string.data with
  | nil => exact absurd hs (splitOnChar_ne_nil _ _)
  | cons h t =>
    rw [hs] at hjoin
    cases t with
    | nil => simpa [joinWith] using hjoin.symm
    | cons h2 t2 => simpa [joinWith] using hjoin.symm

theorem STACVersionID.eq_of_parts {a b : STACVersionID}
    (hc : a.version_core = b.version_core)
    (hp : a.version_prerelease = b.version_prerelease) : a = b := by
  have ha := a.reconstruct
  have hb := b.reconstruct
  rw [hc, hp] at ha
  have hdata : a.version_string.data = b.version_string.data := ha.trans hb.symm
  cases a with
  | mk sa =>
    cases b with
    | mk sb =>
      simp only at hdata
      exact congrArg STACVersionID.mk (congrArg String.mk hdata)

theorem STACVersionID.blt_irrefl (a : STACVersionID) : a.blt a = false := by
  unfold STACVersionID.blt
  simp only [strLtb_irrefl, if_neg]
  cases a.version_prerelease with
  | none => simp
  | some p => simp [strLtb_irrefl]

theorem STACVersionID.blt_trans {a b c : STACVersionID} (h1 : a.blt b = true)
    (h2 : b.blt c = true) : a.blt c = true := by
  unfold STACVersionID.blt at h1 h2 ⊢
  by_cases hab : strLtb a.version_core b.version_core = true
  · by_cases hbc : strLtb b.version_core c.version_core = true
    · simp [strLtb_trans hab hbc]
    · simp only [hbc, if_false, Bool.false_eq_true] at h2
      by_cases hcb : strLtb c.version_core b.version_core = true
      · simp [hcb] at h2
      · have hbc' : b.version_core = c.version_core :=
          strLtb_conn (Bool.not_eq_true _ ▸ hbc) (Bool.not_eq_true _ ▸ hcb)
        rw [← hbc']
        simp [hab]
  · simp only [hab, if_false, Bool.false_eq_true] at h1
    by_cases hba : strLtb b.version_core a.version_core = true
    · simp [hba] at h1
    · have hab' : a.version_core = b.version_core :=
        strLtb_conn (Bool.not_eq_true _ ▸ hab) (Bool.not_eq_true _ ▸ hba)
      by_cases hbc : strLtb b.version_core c.version_core = true
      · rw [hab']
        simp [hbc]
      · simp only [hbc, if_false, Bool.false_eq_true] at h2
        by_cases hcb : strLtb c.version_core b.version_core = true
        · simp [hcb] at h2
        · have hbc' : b.version_core = c.version_core :=
            strLtb_conn (Bool.not_eq_true _ ▸ hbc) (Bool.not_eq_true _ ▸ hcb)
          have hac : a.version_core = c.version_core := hab'.trans hbc'
          rw [hac, strLtb_irrefl]
          simp only [Bool.false_eq_true, reduceIte]
          rw [hab', strLtb_irrefl] at h1
          rw [hbc', strLtb_irrefl] at h2
          simp only [Bool.false_eq_true, reduceIte] at h1 h2
          cases hpa : a.version_prerelease with
          | none => rw [hpa] at h1; exact Bool.noConfusion h1
          | some pa =>
            rw [hpa] at h1
            cases hpb : b.version_prerelease with
            | none => rw [hpb] at h2; exact Bool.noConfusion h2
            | some pb =>
              rw [hpb] at h1
              rw [hpb] at h2
              cases hpc : c.version_prerelease with
              | none => rfl
              | some pc =>
                rw [hpc] at h2
                exact strLtb_trans h1 h2

theorem STACVersionID.blt_asymm {a b : STACVersionID} (h : a.blt b = true) :
    b.blt a = false := by
  unfold STACVersionID.blt at h ⊢
  by_cases hab : strLtb a.version_core b.version_core = true
  · simp [hab, strLtb_asymm hab]
  · simp only [hab, if_false, Bool.false_eq_true] at h
    by_cases hba : strLtb b.version_core a.version_core = true
    · simp [hba] at h
    · have hcore : a.version_core = b.version_core :=
        strLtb_conn (Bool.not_eq_true _ ▸ hab) (Bool.not_eq_true _ ▸ hba)
      rw [hcore, strLtb_irrefl] at h ⊢
      simp only [Bool.false_eq_true, reduceIte] at h ⊢
      cases hpa : a.version_prerelease with
      | none => rw [hpa] at h; exact Bool.noConfusion h
      | some pa =>
        rw [hpa] at h
        cases hpb : b.version_prerelease with
        | none => rfl
        | some pb =>
          rw [hpb] at h
          exact strLtb_asymm h

theorem STACVersionID.blt_conn {a b : STACVersionID} (h1 : a.blt b = false)
    (h2 : b.blt a = false) : a = b := by
  unfold STACVersionID.blt at h1 h2
  by_cases hab : strLtb a.version_core b.version_core = true
  · simp [hab] at h1
  · by_cases hba : strLtb b.version_core a.version_core = true
    · simp [hba] at h2
    · have hcore : a.version_core = b.version_core :=
        strLtb_conn (Bool.not_eq_true _ ▸ hab) (Bool.not_eq_true _ ▸ hba)
      rw [hcore, strLtb_irrefl] at h1 h2
      simp only [Bool.false_eq_true, reduceIte] at h1 h2
      refine STACVersionID.eq_of_parts hcore ?_
      cases hpa : a.version_prerelease with
      | none =>
        cases hpb : b.version_prerelease with
        | none => rfl
        | some pb => rw [hpa, hpb] at h2; exact Bool.noConfusion h2
      | some pa =>
        cases hpb : b.version_prerelease with
        | none => rw [hpa, hpb] at h1; exact Bool.noConfusion h1
        | some pb =>
          rw [hpa, hpb] at h1 h2
          rw [strLtb_conn h1 h2]

/-! ## A linear order structure for STACVersionID

`@total_ordering` on the Python class promises a strict total order; we package
the comparison as a Mathlib `LinearOrder` so that lattice lemmas apply. -/

theorem bool_eq_false {b : Bool} (h : ¬ b = true) : b = false := by
  cases b with
  | false => rfl
  | true => exact absurd rfl h

instance : LinearOrder STACVersionID where
  lt a b := a.blt b = true
  le a b := b.blt a = false
  le_refl a := a.blt_irrefl
  le_trans a b c h1 h2 := by
    have h1' : b.blt a = false := h1
    have h2' : c.blt b = false := h2
    show c.blt a = false
    cases hv : c.blt a with
    | false => rfl
    | true =>
      by_cases hab : a.blt b = true
      · have hcb := STACVersionID.blt_trans hv hab
        rw [hcb] at h2'
        exact Bool.noConfusion h2'
      · have hab' : a = b := STACVersionID.blt_conn (bool_eq_false hab) h1'
        rw [← hab'] at h2'
        rw [hv] at h2'
        exact Bool.noConfusion h2'
  le_antisymm a b h1 h2 := STACVersionID.blt_conn h2 h1
  le_total a b := by
    cases h : a.blt b with
    | true => exact Or.inl (STACVersionID.blt_asymm h)
    | false => exact Or.inr h
  lt_iff_le_not_le a b := by
    constructor
    · intro h
      have h' : a.blt b = true := h
      refine ⟨STACVersionID.blt_asymm h', ?_⟩
      intro hc
      have hc' : a.blt b = false := hc
      rw [h'] at hc'
      exact Bool.noConfusion hc'
    · rintro ⟨h1, h2⟩
      show a.blt b = true
      cases hv : a.blt b with
      | true => rfl
      | false => exact absurd hv h2
  decidableLE := fun a b => instDecidableEqBool (b.blt a) false
  decidableEq := fun a b => inferInstance
  decidableLT := fun a b => instDecidableEqBool (a.blt b) true

theorem STACVersionID.lt_iff_blt {a b : STACVersionID} : a < b ↔ a.blt b = true :=
  Iff.rfl

theorem STACVersionID.le_iff_blt {a b : STACVersionID} : a ≤ b ↔ b.blt a = false :=
  Iff.rfl

theorem STACVersionID.blt_eq_false_iff {a b : STACVersionID} :
    a.blt b = false ↔ b ≤ a := Iff.rfl

theorem STACVersionID.ble_iff_le {a b : STACVersionID} : a.ble b = true ↔ a ≤ b := by
  unfold STACVersionID.ble strEqb
  constructor
  · intro h
    rcases Bool.or_eq_true_iff.mp h with h | h
    · exact le_of_lt h
    · have : a.version_string = b.version_string := by
        have := (beq_iff_eq).mp h
        exact this
      have hab : a = b := by
        cases a; cases b; simpa using this
      exact le_of_eq hab
  · intro h
    rcases lt_or_eq_of_le h with h | h
    · exact Bool.or_eq_true_iff.mpr (Or.inl h)
    · exact Bool.or_eq_true_iff.mpr (Or.inr (by rw [h]; exact beq_self_eq_true _))

/-! ## STACVersionRange (identify.py lines 49-107) -/

/-- Modelled from the spec: `pystac.version.STACVersion.DEFAULT_STAC_VERSION`
lives outside this module (only `identify.py` is in scope).  The spec describes
it only as "the spec's current default version"; we fix the current-era value,
which is the version string the module's own docstring uses as its example of
a current release. -/
def DEFAULT_STAC_VERSION : String := "1.0.0-beta.2"

structure STACVersionRange where
  min_version : STACVersionID
  max_version : STACVersionID
deriving DecidableEq, Repr

/-- `STACVersionRange()` with the default arguments:
`min_version='0.4.0'`, `max_version=STACVersion.DEFAULT_STAC_VERSION`. -/
def STACVersionRange.initial : STACVersionRange :=
  { min_version := ⟨"0.4.0"⟩, max_version := ⟨DEFAULT_STAC_VERSION⟩ }

/-- `set_min`: raise the lower bound to `v`, silently clamped at the current
maximum. -/
def STACVersionRange.set_min (r : STACVersionRange) (v : STACVersionID) :
    STACVersionRange :=
  if r.min_version.blt v then
    if v.blt r.max_version then { r with min_version := v }
    else { r with min_version := r.max_version }
  else r

/-- `set_max`: lower the upper bound to `v`, silently clamped at the current
minimum. -/
def STACVersionRange.set_max (r : STACVersionRange) (v : STACVersionID) :
    STACVersionRange :=
  if v.blt r.max_version then
    if r.min_version.blt v then { r with max_version := v }
    else { r with max_version := r.min_version }
  else r

/-- `set_to_single`: `set_min(v)` followed by `set_max(v)`. -/
def STACVersionRange.set_to_single (r : STACVersionRange) (v : STACVersionID) :
    STACVersionRange :=
  (r.set_min v).set_max v

/-- `contains`: `min_version <= v and v <= max_version` (with the
`total_ordering`-derived `<=`). -/
def STACVersionRange.contains (r : STACVersionRange) (v : STACVersionID) : Bool :=
  r.min_version.ble v && v.ble r.max_version

/-- `is_single_version`: `min_version >= max_version`, i.e.
`not (min_version < max_version)`. -/
def STACVersionRange.is_single_version (r : STACVersionRange) : Bool :=
  !(r.min_version.blt r.max_version)

/-- `is_earlier_than`: `max_version < v`. -/
def STACVersionRange.is_earlier_than (r : STACVersionRange) (v : STACVersionID) :
    Bool :=
  r.max_version.blt v

/-- `is_later_than`: `v < min_version`. -/
def STACVersionRange.is_later_than (r : STACVersionRange) (v : STACVersionID) :
    Bool :=
  v.blt r.min_version

/-! ### Algebraic form of the narrowing operations -/

theorem STACVersionRange.set_min_eq (r : STACVersionRange) (v : STACVersionID)
    (h : r.min_version ≤ r.max_version) :
    r.set_min v =
      ⟨max r.min_version (min v r.max_version), r.max_version⟩ := by
  unfold STACVersionRange.set_min
  by_cases h1 : r.min_version.blt v = true
  · have hlt1 : r.min_version < v := h1
    by_cases h2 : v.blt r.max_version = true
    · have hlt2 : v < r.max_version := h2
      rw [if_pos h1, if_pos h2]
      have : min v r.max_version = v := min_eq_left (le_of_lt hlt2)
      rw [this, max_eq_right (le_of_lt hlt1)]
    · have hle2 : r.max_version ≤ v := bool_eq_false h2
      rw [if_pos h1, if_neg (by simp [h2])]
      have : min v r.max_version = r.max_version := min_eq_right hle2
      rw [this, max_eq_right h]
  · have hle1 : v ≤ r.min_version := bool_eq_false h1
    rw [if_neg (by simp [h1])]
    have hmin : min v r.max_version ≤ r.min_version :=
      le_trans (min_le_left _ _) hle1
    rw [max_eq_left hmin]

theorem STACVersionRange.set_max_eq (r : STACVersionRange) (v : STACVersionID)
    (h : r.min_version ≤ r.max_version) :
    r.set_max v =
      ⟨r.min_version, min r.max_version (max v r.min_version)⟩ := by
  unfold STACVersionRange.set_max
  by_cases h1 : v.blt r.max_version = true
  · have hlt1 : v < r.max_version := h1
    by_cases h2 : r.min_version.blt v = true
    · have hlt2 : r.min_version < v := h2
      rw [if_pos h1, if_pos h2]
      have : max v r.min_version = v := max_eq_left (le_of_lt hlt2)
      rw [this, min_eq_right (le_of_lt hlt1)]
    · have hle2 : v ≤ r.min_version := bool_eq_false h2
      rw [if_pos h1, if_neg (by simp [h2])]
      have : max v r.min_version = r.min_version := max_eq_right hle2
      rw [this, min_eq_right h]
  · have hle1 : r.max_version ≤ v := bool_eq_false h1
    rw [if_neg (by simp [h1])]
    have hmax : r.max_version ≤ max v r.min_version :=
      le_trans hle1 (le_max_left _ _)
    rw [min_eq_left hmax]

/-! ### Narrowing invariants -/

/-- The interval invariant `min_version <= max_version`. -/
def STACVersionRange.ok (r : STACVersionRange) : Prop :=
  r.min_version ≤ r.max_version

/-- `r'` is a sub-interval of `r`. -/
def STACVersionRange.shrinksTo (r r' : STACVersionRange) : Prop :=
  r.min_version ≤ r'.min_version ∧ r'.max_version ≤ r.max_version

theorem STACVersionRange.shrinksTo_refl (r : STACVersionRange) : r.shrinksTo r :=
  ⟨le_refl _, le_refl _⟩

theorem STACVersionRange.shrinksTo_trans {r1 r2 r3 : STACVersionRange}
    (h1 : r1.shrinksTo r2) (h2 : r2.shrinksTo r3) : r1.shrinksTo r3 :=
  ⟨le_trans h1.1 h2.1, le_trans h2.2 h1.2⟩

theorem STACVersionRange.set_min_ok {r : STACVersionRange} (v : STACVersionID)
    (h : r.ok) : (r.set_min v).ok ∧ r.shrinksTo (r.set_min v) := by
  rw [STACVersionRange.set_min_eq r v h]
  refine ⟨?_, ?_, ?_⟩
  · exact max_le h (min_le_right _ _)
  · exact le_max_left _ _
  · exact le_refl _

theorem STACVersionRange.set_max_ok {r : STACVersionRange} (v : STACVersionID)
    (h : r.ok) : (r.set_max v).ok ∧ r.shrinksTo (r.set_max v) := by
  rw [STACVersionRange.set_max_eq r v h]
  refine ⟨?_, ?_, ?_⟩
  · exact le_min h (le_max_right _ _)
  · exact le_refl _
  · exact min_le_left _ _

theorem STACVersionRange.set_to_single_ok {r : STACVersionRange}
    (v : STACVersionID) (h : r.ok) :
    (r.set_to_single v).ok ∧ r.shrinksTo (r.set_to_single v) := by
  unfold STACVersionRange.set_to_single
  obtain ⟨h1, h2⟩ := STACVersionRange.set_min_ok v h
  obtain ⟨h3, h4⟩ := STACVersionRange.set_max_ok (r := r.set_min v) v h1
  exact ⟨h3, STACVersionRange.shrinksTo_trans h2 h4⟩

/-! ### Commutation of same-kind narrowing calls -/

theorem STACVersionRange.set_min_comm (r : STACVersionRange)
    (a b : STACVersionID) (h : r.ok) :
    (r.set_min a).set_min b = (r.set_min b).set_min a := by
  obtain ⟨m, M⟩ := r
  have h' : m ≤ M := h
  have hra : STACVersionRange.set_min ⟨m, M⟩ a = ⟨max m (min a M), M⟩ :=
    STACVersionRange.set_min_eq _ a h'
  have hrb : STACVersionRange.set_min ⟨m, M⟩ b = ⟨max m (min b M), M⟩ :=
    STACVersionRange.set_min_eq _ b h'
  have hoa : (⟨max m (min a M), M⟩ : STACVersionRange).ok :=
    max_le h' (min_le_right _ _)
  have hob : (⟨max m (min b M), M⟩ : STACVersionRange).ok :=
    max_le h' (min_le_right _ _)
  rw [hra, hrb, STACVersionRange.set_min_eq _ b hoa,
      STACVersionRange.set_min_eq _ a hob]
  show (⟨max (max m (min a M)) (min b M), M⟩ : STACVersionRange) =
       ⟨max (max m (min b M)) (min a M), M⟩
  congr 1
  exact sup_right_comm m (min a M) (min b M)

theorem STACVersionRange.set_max_comm (r : STACVersionRange)
    (a b : STACVersionID) (h : r.ok) :
    (r.set_max a).set_max b = (r.set_max b).set_max a := by
  obtain ⟨m, M⟩ := r
  have h' : m ≤ M := h
  have hra : STACVersionRange.set_max ⟨m, M⟩ a = ⟨m, min M (max a m)⟩ :=
    STACVersionRange.set_max_eq _ a h'
  have hrb : STACVersionRange.set_max ⟨m, M⟩ b = ⟨m, min M (max b m)⟩ :=
    STACVersionRange.set_max_eq _ b h'
  have hoa : (⟨m, min M (max a m)⟩ : STACVersionRange).ok :=
    le_min h' (le_max_right _ _)
  have hob : (⟨m, min M (max b m)⟩ : STACVersionRange).ok :=
    le_min h' (le_max_right _ _)
  rw [hra, hrb, STACVersionRange.set_max_eq _ b hoa,
      STACVersionRange.set_max_eq _ a hob]
  show (⟨m, min (min M (max a m)) (max b m)⟩ : STACVersionRange) =
       ⟨m, min (min M (max b m)) (max a m)⟩
  congr 1
  exact inf_right_comm M (max a m) (max b m)

/-! ### `set_to_single` clamps into the current interval -/

/-- The value `set_to_single v` actually pins both bounds to, for a range
satisfying the invariant: `v` clamped into `[min_version, max_version]`. -/
def STACVersionRange.clamp (r : STACVersionRange) (v : STACVersionID) :
    STACVersionID :=
  max r.min_version (min v r.max_version)

theorem clamp_algebra {A : Type} [LinearOrder A] (m M v : A) (h : m ≤ M) :
    min M (max v (max m (min v M))) = max m (min v M) := by
  rw [max_left_comm, max_eq_left (min_le_left v M)]
  rw [min_max_distrib_left, min_eq_right h, min_comm M v]

theorem STACVersionRange.set_to_single_eq (r : STACVersionRange)
    (v : STACVersionID) (h : r.ok) :
    r.set_to_single v = ⟨r.clamp v, r.clamp v⟩ := by
  obtain ⟨m, M⟩ := r
  have h' : m ≤ M := h
  unfold STACVersionRange.set_to_single STACVersionRange.clamp
  have h1 : (⟨max m (min v M), M⟩ : STACVersionRange).ok :=
    max_le h' (min_le_right _ _)
  rw [STACVersionRange.set_min_eq _ v h', STACVersionRange.set_max_eq _ v h1]
  show (⟨max m (min v M), min M (max v (max m (min v M)))⟩ : STACVersionRange) =
       ⟨max m (min v M), max m (min v M)⟩
  congr 1
  exact clamp_algebra m M v h'

theorem STACVersionRange.set_min_of_single {r : STACVersionRange}
    (v : STACVersionID) (h : r.min_version = r.max_version) :
    r.set_min v = r := by
  obtain ⟨m, M⟩ := r
  simp only at h
  subst h
  unfold STACVersionRange.set_min
  by_cases h1 : m.blt v = true
  · have h2 : v.blt m = false := by
      cases hv : v.blt m with
      | false => rfl
      | true =>
        have hmm := STACVersionID.blt_trans h1 hv
        rw [STACVersionID.blt_irrefl] at hmm
        exact Bool.noConfusion hmm
    simp only [h1, h2]
    rfl
  · simp only [bool_eq_false h1]
    rfl

/-! ## JSON document model and Python dictionary semantics

An already-parsed JSON document.  Python `dict`s become association lists
(first binding wins, as keys are unique in parsed JSON), `None` is `null`.
Fallible Python operations return `Except PyErr`. -/

inductive PyErr where
  | keyError (k : String)
  | attributeError (a : String)
  | typeError (m : String)
deriving DecidableEq, Repr

inductive JSON where
  | null : JSON
  | bool (b : Bool) : JSON
  | num (n : Int) : JSON
  | str (s : String) : JSON
  | arr (items : List JSON) : JSON
  | obj (entries : List (String × JSON)) : JSON

/-- The entries of a Python dict: an association list with string keys. -/
abbrev JObj := List (String × JSON)

def lookupKey (d : JObj) (k : String) : Option JSON :=
  match d with
  | [] => none
  | (k', v) :: rest => if k' = k then some v else lookupKey rest k

/-- `k in d` for a dict `d`. -/
def containsKey (d : JObj) (k : String) : Bool :=
  (lookupKey d k).isSome

/-- `d.get(k)` / `d.get(k, None)`: `None` when the key is absent.  A stored
JSON `null` is also Python `None`, so both cases land on `JSON.null`. -/
def dictGet (d : JObj) (k : String) : JSON :=
  (lookupKey d k).getD JSON.null

/-- `d[k]` on a dict: `KeyError` when absent. -/
def getItem (d : JObj) (k : String) : Except PyErr JSON :=
  match lookupKey d k with
  | some v => .ok v
  | none => .error (.keyError k)

/-- `v[k]` where `v` is an arbitrary JSON value and `k` a string: works only
on dicts; lists/strings raise `TypeError` for string subscripts, scalars are
not subscriptable. -/
def getItem2 (v : JSON) (k : String) : Except PyErr JSON :=
  match v with
  | .obj entries => getItem entries k
  | _ => .error (.typeError "not subscriptable by str")

/-- `v == some_string` in Python: true only for an equal string. -/
def jsonEqStr (v : JSON) (s : String) : Bool :=
  match v with
  | .str x => x == s
  | _ => false

/-- `v is None` (and `v == None` for parsed JSON). -/
def isNull (v : JSON) : Bool :=
  match v with
  | .null => true
  | _ => false

def isDict (v : JSON) : Bool :=
  match v with
  | .obj _ => true
  | _ => false

def isList (v : JSON) : Bool :=
  match v with
  | .arr _ => true
  | _ => false

def isStr (v : JSON) : Bool :=
  match v with
  | .str _ => true
  | _ => false

/-- Python `s.startswith(p)` (here via the character data). -/
def pyStartsWith (s p : String) : Bool :=
  p.data.isPrefixOf s.data

/-- Python `s.endswith(p)`. -/
def pyEndsWith (s p : String) : Bool :=
  p.data.isSuffixOf s.data

/-- `v.startswith(p)`: attribute lookup fails on non-strings. -/
def startswith (v : JSON) (p : String) : Except PyErr Bool :=
  match v with
  | .str s => .ok (pyStartsWith s p)
  | _ => .error (.attributeError "startswith")

/-- `v.keys()`: attribute lookup fails on non-dicts. -/
def propKeys (v : JSON) : Except PyErr (List String) :=
  match v with
  | .obj entries => .ok (entries.map (fun e => e.1))
  | _ => .error (.attributeError "keys")

/-- `v.values()`: attribute lookup fails on non-dicts. -/
def pyValues (v : JSON) : Except PyErr (List JSON) :=
  match v with
  | .obj entries => .ok (entries.map (fun e => e.2))
  | _ => .error (.attributeError "values")

/-- `for x in v`: dicts iterate over their keys (as strings), lists over
their items, strings over their one-character substrings; everything else is
not iterable. -/
def pyIter (v : JSON) : Except PyErr (List JSON) :=
  match v with
  | .obj entries => .ok (entries.map (fun e => JSON.str e.1))
  | .arr items => .ok items
  | .str s => .ok (s.data.map (fun c => JSON.str (String.mk [c])))
  | _ => .error (.typeError "not iterable")

/-- Substring containment on character data. -/
def isInfixB (needle : List Char) : List Char → Bool
  | [] => needle.isEmpty
  | h :: t => needle.isPrefixOf (h :: t) || isInfixB needle t

/-- `item in container` for a string `item`: key membership for dicts,
element equality for lists, substring containment for strings; `TypeError`
otherwise. -/
def pyIn (item : String) (container : JSON) : Except PyErr Bool :=
  match container with
  | .obj entries => .ok (containsKey entries item)
  | .arr items => .ok (items.any (fun v => jsonEqStr v item))
  | .str s => .ok (isInfixB item.data s.data)
  | _ => .error (.typeError "argument of type is not iterable")

/-- Passing a raw JSON value where a version is compared
(`STACVersionID.__lt__` coerces `str` arguments and hits
`other.version_core` otherwise, an `AttributeError`). -/
def coerceVersionID (v : JSON) : Except PyErr STACVersionID :=
  match v with
  | .str s => .ok ⟨s⟩
  | _ => .error (.attributeError "version_core")

/-! ## Object types and extension identifiers

`pystac.STACObjectType` and `pystac.extensions.Extensions` are collaborators
consumed only through their constants. -/

inductive STACObjectType where
  | CATALOG
  | COLLECTION
  | ITEM
  | ITEMCOLLECTION
deriving DecidableEq, Repr

namespace Extensions

/-- Modelled from the spec: the identifier strings of
`pystac.extensions.Extensions` are outside this module; the spec's heuristic
table (section 4.5) fixes them as the short ids used here and below. -/
def CHECKSUM : String := "checksum"

/-- Modelled from the spec (see `Extensions.CHECKSUM`). -/
def DATACUBE : String := "datacube"

/-- Modelled from the spec (see `Extensions.CHECKSUM`). -/
def EO : String := "eo"

/-- Modelled from the spec (see `Extensions.CHECKSUM`). -/
def POINTCLOUD : String := "pointcloud"

/-- Modelled from the spec (see `Extensions.CHECKSUM`). -/
def SAR : String := "sar"

/-- Modelled from the spec (see `Extensions.CHECKSUM`). -/
def SCIENTIFIC : String := "scientific"

/-- Modelled from the spec (see `Extensions.CHECKSUM`). -/
def SINGLE_FILE_STAC : String := "single-file-stac"

end Extensions

/-- `set.add` on our insertion-ordered duplicate-free list model of a Python
set (`list(set)` iteration order is unspecified in Python; none of the claims
depend on the relative order of two distinct extension ids). -/
def setAdd (l : List String) (s : String) : List String :=
  if l.contains s then l else l ++ [s]

/-! ## identify_stac_object_type (identify.py lines 269-293) -/

/-- Lines 280-284: the pre-1.0 ITEMCOLLECTION branch.  `object_type` starts
as Python `None`; this branch may assign `ITEMCOLLECTION` (and may raise an
`AttributeError` on a non-string `stac_version`). -/
def pre10_itemcollection_check (json_dict : JObj) :
    Except PyErr (Option STACObjectType) := do
  if containsKey json_dict "type" && !(containsKey json_dict "assets") then
    if containsKey json_dict "stac_version" then do
      let sv ← getItem json_dict "stac_version"
      if (← startswith sv "0") then do
        let t ← getItem json_dict "type"
        if jsonEqStr t "FeatureCollection" then
          pure (some STACObjectType.ITEMCOLLECTION)
        else
          pure none
      else
        pure none
    else
      pure none
  else
    pure none

/-- `identify_stac_object_type`: the value assigned by the pre-1.0 branch is
unconditionally overwritten by the `extent`/`assets` chain (lines 286-291),
but the branch's attribute accesses can still raise. -/
def identify_stac_object_type (json_dict : JObj) :
    Except PyErr (Option STACObjectType) := do
  let object_type ← pre10_itemcollection_check json_dict
  let object_type :=
    if containsKey json_dict "extent" then some STACObjectType.COLLECTION
    else if containsKey json_dict "assets" then some STACObjectType.ITEM
    else some STACObjectType.CATALOG
  return object_type

/-! ## _identify_stac_extensions (identify.py lines 135-251)

The function is a sequence of independent heuristic blocks over the state
`(stac_extensions, version_range)`; we name one definition per commented
block of the source. -/

/-- State threaded through the heuristic blocks. -/
abbrev ExtState := List String × STACVersionRange

/-- assets (collection assets) block. -/
def assets_block (object_type : Option STACObjectType) (d : JObj)
    (st : ExtState) : Except PyErr ExtState :=
  if object_type = some STACObjectType.ITEMCOLLECTION then
    if containsKey d "assets" then
      .ok (setAdd st.1 "assets", st.2.set_min ⟨"0.8.0"⟩)
    else .ok st
  else .ok st

/-- One link of the checksum loop: old links-as-dict iteration yields string
keys, which are re-subscripted (`d['links'][link]`); dict links are used
directly; `.keys()` then fails on anything that is not a dict. -/
def link_props_of (links link : JSON) : Except PyErr (List String) :=
  match link with
  | .str s => do propKeys (← getItem2 links s)
  | _ => propKeys link

/-- The `for link in d['links']` loop: no break, so every link is inspected
(and may raise) even after a checksum property has been found. -/
def links_checksum_loop (links : JSON) : List JSON → Except PyErr Bool
  | [] => .ok false
  | link :: rest => do
    let link_props ← link_props_of links link
    let found ← links_checksum_loop links rest
    pure (link_props.any (fun prop => pyStartsWith prop "checksum:") || found)

/-- The `for asset in d['assets'].values()` loop (again no break). -/
def assets_checksum_loop : List JSON → Except PyErr Bool
  | [] => .ok false
  | asset :: rest => do
    let asset_props ← propKeys asset
    let found ← assets_checksum_loop rest
    pure (asset_props.any (fun prop => pyStartsWith prop "checksum:") || found)

/-- checksum block. -/
def checksum_block (d : JObj) (st : ExtState) : Except PyErr ExtState := do
  if containsKey d "links" then
    let links ← getItem d "links"
    let found1 ← links_checksum_loop links (← pyIter links)
    let exts := if found1 then setAdd st.1 Extensions.CHECKSUM else st.1
    let (found_checksum, exts) ←
      if !found1 then
        if containsKey d "assets" then do
          let assets ← getItem d "assets"
          let found2 ← assets_checksum_loop (← pyValues assets)
          pure (found2, if found2 then setAdd exts Extensions.CHECKSUM else exts)
        else pure (false, exts)
      else pure (true, exts)
    if found_checksum then
      pure (exts, st.2.set_min ⟨"0.6.2"⟩)
    else
      pure (exts, st.2)
  else pure st

/-- `any(k.startswith(p) for k in v)`: short-circuits at the first match. -/
def startswith_any_loop (p : String) : List JSON → Except PyErr Bool
  | [] => .ok false
  | k :: rest => do
    if (← startswith k p) then pure true
    else startswith_any_loop p rest

def anyKeyStartswith (v : JSON) (p : String) : Except PyErr Bool := do
  startswith_any_loop p (← pyIter v)

/-- datacube block. -/
def datacube_block (object_type : Option STACObjectType) (d : JObj)
    (st : ExtState) : Except PyErr ExtState := do
  if object_type = some STACObjectType.ITEM then
    let props ← getItem d "properties"
    if (← anyKeyStartswith props "cube:") then
      pure (setAdd st.1 Extensions.DATACUBE, st.2.set_min ⟨"0.6.1"⟩)
    else pure st
  else pure st

/-- datetime-range (old extension) block. -/
def datetime_range_block (object_type : Option STACObjectType) (d : JObj)
    (st : ExtState) : Except PyErr ExtState := do
  if object_type = some STACObjectType.ITEM then
    let props ← getItem d "properties"
    if (← pyIn "dtr:start_datetime" props) then
      pure (setAdd st.1 "datetime-range", st.2.set_min ⟨"0.6.0"⟩)
    else pure st
  else pure st

/-- eo block, lines 191-193: a null `eo:epsg` raises the minimum. -/
def eo_epsg_step (props : JSON) (vr : STACVersionRange) :
    Except PyErr STACVersionRange := do
  if (← pyIn "eo:epsg" props) then do
    let v ← getItem2 props "eo:epsg"
    pure (if isNull v then vr.set_min ⟨"0.6.1"⟩ else vr)
  else pure vr

/-- eo block, lines 194-195: an `eo:crs` property caps the range. -/
def eo_crs_step (props : JSON) (vr : STACVersionRange) :
    Except PyErr STACVersionRange := do
  if (← pyIn "eo:crs" props) then pure (vr.set_max ⟨"0.4.1"⟩)
  else pure vr

/-- eo block, lines 196-197: an `eo:constellation` property raises the
minimum. -/
def eo_constellation_step (props : JSON) (vr : STACVersionRange) :
    Except PyErr STACVersionRange := do
  if (← pyIn "eo:constellation" props) then pure (vr.set_min ⟨"0.6.0"⟩)
  else pure vr

/-- eo block. -/
def eo_block (object_type : Option STACObjectType) (d : JObj)
    (st : ExtState) : Except PyErr ExtState := do
  if object_type = some STACObjectType.ITEM then
    let props ← getItem d "properties"
    let st ←
      if (← anyKeyStartswith props "eo:") then do
        let exts := setAdd st.1 Extensions.EO
        let vr ← eo_epsg_step props st.2
        let vr ← eo_crs_step props vr
        let vr ← eo_constellation_step props vr
        pure ((exts, vr) : ExtState)
      else pure st
    if containsKey d "eo:bands" then
      pure (setAdd st.1 Extensions.EO, st.2.set_max ⟨"0.5.2"⟩)
    else pure st
  else pure st

/-- pointcloud block. -/
def pointcloud_block (object_type : Option STACObjectType) (d : JObj)
    (st : ExtState) : Except PyErr ExtState := do
  if object_type = some STACObjectType.ITEM then
    let props ← getItem d "properties"
    if (← anyKeyStartswith props "pc:") then
      pure (setAdd st.1 Extensions.POINTCLOUD, st.2.set_min ⟨"0.6.2"⟩)
    else pure st
  else pure st

def sar_seq_props : List String :=
  ["sar:absolute_orbit", "sar:resolution", "sar:pixel_spacing", "sar:looks"]

def sar_v070_props : List String :=
  ["sar:incidence_angle", "sar:relative_orbit", "sar:observation_direction",
   "sar:resolution_range", "sar:resolution_azimuth", "sar:pixel_spacing_range",
   "sar:pixel_spacing_azimuth", "sar:looks_range", "sar:looks_azimuth",
   "sar:looks_equivalent_number"]

/-- The 0.6.2 sar loop: list-valued members of `sar_seq_props` cap the range. -/
def sar_max_loop (props : JSON) (vr : STACVersionRange) :
    List String → Except PyErr STACVersionRange
  | [] => .ok vr
  | prop :: rest => do
    let vr ←
      if (← pyIn prop props) then do
        let v ← getItem2 props prop
        pure (if isList v then vr.set_max ⟨"0.6.2"⟩ else vr)
      else pure vr
    sar_max_loop props vr rest

/-- The 0.7.0 sar loop: presence of any `sar_v070_props` member raises the
minimum. -/
def sar_min_loop (props : JSON) (vr : STACVersionRange) :
    List String → Except PyErr STACVersionRange
  | [] => .ok vr
  | prop :: rest => do
    let vr ←
      if (← pyIn prop props) then pure (vr.set_min ⟨"0.7.0"⟩)
      else pure vr
    sar_min_loop props vr rest

/-- sar block, lines 213-219: only when the range still contains 0.6.2. -/
def sar_seq_check (props : JSON) (vr : STACVersionRange) :
    Except PyErr STACVersionRange :=
  if vr.contains ⟨"0.6.2"⟩ then sar_max_loop props vr sar_seq_props
  else pure vr

/-- sar block, lines 220-231: only when the range still contains 0.7.0. -/
def sar_v070_check (props : JSON) (vr : STACVersionRange) :
    Except PyErr STACVersionRange := do
  if vr.contains ⟨"0.7.0"⟩ then do
    let vr ← sar_min_loop props vr sar_v070_props
    if (← pyIn "sar:absolute_orbit" props) then do
      let v ← getItem2 props "sar:absolute_orbit"
      pure (if !(isList v) then vr.set_min ⟨"0.7.0"⟩ else vr)
    else pure vr
  else pure vr

/-- sar block, lines 232-233. -/
def sar_off_nadir_check (props : JSON) (vr : STACVersionRange) :
    Except PyErr STACVersionRange := do
  if (← pyIn "sar:off_nadir" props) then pure (vr.set_max ⟨"0.6.2"⟩)
  else pure vr

/-- sar block. -/
def sar_block (object_type : Option STACObjectType) (d : JObj)
    (st : ExtState) : Except PyErr ExtState := do
  if object_type = some STACObjectType.ITEM then
    let props ← getItem d "properties"
    if (← anyKeyStartswith props "sar:") then do
      let exts := setAdd st.1 Extensions.SAR
      let vr := st.2.set_min ⟨"0.6.2"⟩
      let vr ← sar_seq_check props vr
      let vr ← sar_v070_check props vr
      let vr ← sar_off_nadir_check props vr
      pure ((exts, vr) : ExtState)
    else pure st
  else pure st

/-- scientific block (guarded by `'properties' in d`, unlike the ITEM-scoped
blocks above). -/
def scientific_block (object_type : Option STACObjectType) (d : JObj)
    (st : ExtState) : Except PyErr ExtState := do
  if object_type = some STACObjectType.ITEM ∨
     object_type = some STACObjectType.COLLECTION then
    if containsKey d "properties" then do
      let props ← getItem d "properties"
      let prop_keys ← propKeys props
      if prop_keys.any (fun k => pyStartsWith k "sci:") then
        pure ((setAdd st.1 Extensions.SCIENTIFIC, st.2.set_min ⟨"0.6.0"⟩) : ExtState)
      else pure st
    else pure st
  else pure st

/-- Single File STAC block. -/
def single_file_stac_block (object_type : Option STACObjectType) (d : JObj)
    (st : ExtState) : Except PyErr ExtState :=
  if object_type = some STACObjectType.ITEMCOLLECTION then
    if containsKey d "collections" then
      let exts := setAdd st.1 Extensions.SINGLE_FILE_STAC
      let vr := st.2.set_min ⟨"0.8.0"⟩
      let vr :=
        if !(containsKey d "stac_extensions") then vr.set_max ⟨"0.8.1"⟩ else vr
      .ok (exts, vr)
    else .ok st
  else .ok st

/-- `_identify_stac_extensions`: the blocks in source order, starting from an
empty extension set. -/
def identify_stac_extensions (object_type : Option STACObjectType) (d : JObj)
    (version_range : STACVersionRange) : Except PyErr ExtState := do
  let st ← assets_block object_type d (([], version_range) : ExtState)
  let st ← checksum_block d st
  let st ← datacube_block object_type d st
  let st ← datetime_range_block object_type d st
  let st ← eo_block object_type d st
  let st ← pointcloud_block object_type d st
  let st ← sar_block object_type d st
  let st ← scientific_block object_type d st
  let st ← single_file_stac_block object_type d st
  return st

/-! ## _split_extensions (identify.py lines 254-266) and the final record -/

/-- `ext.endswith` on a non-string raises `AttributeError`. -/
def asStrForEndswith (v : JSON) : Except PyErr String :=
  match v with
  | .str s => .ok s
  | _ => .error (.attributeError "endswith")

/-- The split loop body: custom extensions end in `.json` or contain `/`. -/
def split_loop : List JSON → Except PyErr (List String × List String)
  | [] => .ok ([], [])
  | ext :: rest => do
    let e ← asStrForEndswith ext
    let (common_extensions, custom_extensions) ← split_loop rest
    if pyEndsWith e ".json" || e.data.contains '/' then
      pure (common_extensions, e :: custom_extensions)
    else
      pure (e :: common_extensions, custom_extensions)

/-- `_split_extensions` over the runtime value of `stac_extensions` (either
the raw JSON field value or the list produced by the inference pass). -/
def split_extensions (stac_extensions : JSON) :
    Except PyErr (List String × List String) := do
  split_loop (← pyIter stac_extensions)

/-- The pure result of splitting a list of plain string identifiers. -/
def splitPure : List String → List String × List String
  | [] => ([], [])
  | e :: rest =>
    let (common_extensions, custom_extensions) := splitPure rest
    if pyEndsWith e ".json" || e.data.contains '/' then
      (common_extensions, e :: custom_extensions)
    else
      (e :: common_extensions, custom_extensions)

structure STACJSONDescription where
  object_type : Option STACObjectType
  version_range : STACVersionRange
  common_extensions : List String
  custom_extensions : List String
deriving DecidableEq, Repr

/-! ## identify_stac_object (identify.py lines 296-354), in three phases -/

/-- Lines 313-320: without a declared version, the default bounds depend on
the object type (the `else` arm is the ItemCollection arm, also taken for a
`None` object type, which never reaches here). -/
def default_bounds (object_type : Option STACObjectType)
    (version_range : STACVersionRange) : STACVersionRange :=
  if object_type = some STACObjectType.CATALOG ∨
      object_type = some STACObjectType.COLLECTION then
    version_range.set_max ⟨"0.5.2"⟩
  else if object_type = some STACObjectType.ITEM then
    version_range.set_max ⟨"0.7.0"⟩
  else
    version_range.set_min ⟨"0.8.0"⟩

/-- Lines 324-325: a non-None `stac_extensions` value raises the minimum. -/
def ext_presence_raise (stac_extensions : JSON)
    (version_range : STACVersionRange) : STACVersionRange :=
  if !(isNull stac_extensions) then version_range.set_min ⟨"0.8.0"⟩
  else version_range

/-- Lines 308-325: the fresh default range, the declared-version pinning
(`set_to_single`) or per-type default bounds, then the
`stac_extensions`-presence minimum raise.  `json_dict.get(k)` yields Python
`None` both for an absent key and for a stored JSON `null`. -/
def version_phase (object_type : Option STACObjectType) (json_dict : JObj) :
    Except PyErr STACVersionRange := do
  if isNull (dictGet json_dict "stac_version") then
    pure (ext_presence_raise (dictGet json_dict "stac_extensions")
      (default_bounds object_type STACVersionRange.initial))
  else do
    let v ← coerceVersionID (dictGet json_dict "stac_version")
    pure (ext_presence_raise (dictGet json_dict "stac_extensions")
      (STACVersionRange.initial.set_to_single v))

/-- The guard of lines 332-334 on running the structural inference. -/
def inference_condition (object_type : Option STACObjectType)
    (version_range : STACVersionRange) : Bool :=
  version_range.is_earlier_than ⟨"0.8.0"⟩ ||
    (object_type = some STACObjectType.ITEMCOLLECTION &&
      !(version_range.is_later_than ⟨"0.8.1"⟩))

/-- Lines 327-337: run the structural inference when no (non-null)
`stac_extensions` value is present and the range can predate the
`stac_extensions` field, else keep the raw field value (or an empty list). -/
def extensions_phase (object_type : Option STACObjectType) (json_dict : JObj)
    (version_range : STACVersionRange) :
    Except PyErr (JSON × STACVersionRange) := do
  if isNull (dictGet json_dict "stac_extensions") then
    if inference_condition object_type version_range then do
      let (exts, vr) ← identify_stac_extensions object_type json_dict version_range
      return (JSON.arr (exts.map JSON.str), vr)
    else
      return (JSON.arr [], version_range)
  else
    return (dictGet json_dict "stac_extensions", version_range)

/-- `any(filter(lambda l: l['rel'] == 'self', links))`: lazily subscripts
each link until a self link is found. -/
def rel_self_loop : List JSON → Except PyErr Bool
  | [] => .ok false
  | l :: rest => do
    let rel ← getItem2 l "rel"
    if jsonEqStr rel "self" then pure true
    else rel_self_loop rest

def anyRelSelf (links : JSON) : Except PyErr Bool := do
  rel_self_loop (← pyIter links)

/-- Lines 343-345: links were a dictionary only in 0.5. -/
def links_dict_check (json_dict : JObj) (version_range : STACVersionRange) :
    STACVersionRange :=
  if containsKey json_dict "links" && isDict (dictGet json_dict "links") then
    version_range.set_to_single ⟨"0.5.2"⟩
  else version_range

/-- Lines 347-351: self links became non-required in 0.7.0. -/
def self_link_check (json_dict : JObj) (version_range : STACVersionRange) :
    Except PyErr STACVersionRange := do
  if !(version_range.is_earlier_than ⟨"0.7.0"⟩) then do
    let links ← getItem json_dict "links"
    let anySelf ← anyRelSelf links
    if !anySelf then
      pure (version_range.set_min ⟨"0.7.0"⟩)
    else
      pure version_range
  else
    pure version_range

/-- Lines 339-351: the final consistency checks on `links`. -/
def final_checks_phase (json_dict : JObj) (version_range : STACVersionRange) :
    Except PyErr STACVersionRange := do
  if !(version_range.is_single_version) then
    if containsKey json_dict "links" then
      self_link_check json_dict (links_dict_check json_dict version_range)
    else
      pure version_range
  else
    pure version_range

/-- `identify_stac_object`. -/
def identify_stac_object (json_dict : JObj) :
    Except PyErr STACJSONDescription := do
  let object_type ← identify_stac_object_type json_dict
  let version_range ← version_phase object_type json_dict
  let (stac_extensions, version_range) ←
    extensions_phase object_type json_dict version_range
  let version_range ← final_checks_phase json_dict version_range
  let (common_extensions, custom_extensions) ← split_extensions stac_extensions
  return ⟨object_type, version_range, common_extensions, custom_extensions⟩

/-! ## Range preservation through the inference engine

Every range produced by the engine arises from the input range by
`set_min`/`set_max`/`set_to_single` only, so it stays a sub-interval. -/

theorem ebind_ok {α β : Type} (x : α) (f : α → Except PyErr β) :
    (Except.ok x >>= f) = f x := rfl

theorem ebind_err {α β : Type} (e : PyErr) (f : α → Except PyErr β) :
    ((Except.error e : Except PyErr α) >>= f) = .error e := rfl

theorem epure_bind {α β : Type} (x : α) (f : α → Except PyErr β) :
    ((pure x : Except PyErr α) >>= f) = f x := rfl

/-- Outcome contract of one heuristic block. -/
def BlockShrinks (f : ExtState → Except PyErr ExtState) : Prop :=
  ∀ st st', f st = .ok st' → st.2.ok → st'.2.ok ∧ st.2.shrinksTo st'.2

theorem assets_block_shrink (ot : Option STACObjectType) (d : JObj) :
    BlockShrinks (assets_block ot d) := by
  intro st st' h hok
  unfold assets_block at h
  split at h
  · split at h
    · cases h
      exact ⟨(STACVersionRange.set_min_ok _ hok).1,
        (STACVersionRange.set_min_ok _ hok).2⟩
    · cases h
      exact ⟨hok, STACVersionRange.shrinksTo_refl _⟩
  · cases h
    exact ⟨hok, STACVersionRange.shrinksTo_refl _⟩

theorem checksum_block_shrink (d : JObj) : BlockShrinks (checksum_block d) := by
  intro st st' h hok
  unfold checksum_block at h
  split at h
  · cases hl : getItem d "links" with
    | error e => rw [hl] at h; simp [ebind_err] at h
    | ok links =>
      rw [hl, ebind_ok] at h
      cases hi : pyIter links with
      | error e => rw [hi] at h; simp [ebind_err] at h
      | ok items =>
        rw [hi, ebind_ok] at h
        cases hf1 : links_checksum_loop links items with
        | error e => rw [hf1] at h; simp [ebind_err] at h
        | ok found1 =>
          rw [hf1, ebind_ok] at h
          cases found1 with
          | true =>
            simp only [Bool.not_true, Bool.false_eq_true, reduceIte, bind,
              Except.bind, pure, Except.pure, Except.ok.injEq] at h
            subst h
            exact ⟨(STACVersionRange.set_min_ok _ hok).1,
              (STACVersionRange.set_min_ok _ hok).2⟩
          | false =>
            simp only [Bool.not_false, reduceIte] at h
            split at h
            · cases ha : getItem d "assets" with
              | error e => rw [ha] at h; simp [ebind_err] at h
              | ok assets =>
                rw [ha, ebind_ok] at h
                cases hv : pyValues assets with
                | error e => rw [hv] at h; simp [ebind_err] at h
                | ok vals =>
                  rw [hv, ebind_ok] at h
                  cases hf2 : assets_checksum_loop vals with
                  | error e => rw [hf2] at h; simp [ebind_err] at h
                  | ok found2 =>
                    rw [hf2, ebind_ok] at h
                    cases found2 with
                    | true =>
                      simp only [reduceIte, bind, Except.bind, pure,
                        Except.pure, Except.ok.injEq] at h
                      subst h
                      exact ⟨(STACVersionRange.set_min_ok _ hok).1,
                        (STACVersionRange.set_min_ok _ hok).2⟩
                    | false =>
                      simp only [Bool.false_eq_true, reduceIte, bind,
                        Except.bind, pure, Except.pure, Except.ok.injEq] at h
                      subst h
                      exact ⟨hok, STACVersionRange.shrinksTo_refl _⟩
            · simp only [bind, Except.bind, Bool.false_eq_true, reduceIte,
                pure, Except.pure, Except.ok.injEq] at h
              subst h
              exact ⟨hok, STACVersionRange.shrinksTo_refl _⟩
  · cases h
    exact ⟨hok, STACVersionRange.shrinksTo_refl _⟩

theorem datacube_block_shrink (ot : Option STACObjectType) (d : JObj) :
    BlockShrinks (datacube_block ot d) := by
  intro st st' h hok
  unfold datacube_block at h
  split at h
  · cases hp : getItem d "properties" with
    | error e => rw [hp] at h; simp [ebind_err] at h
    | ok props =>
      rw [hp, ebind_ok] at h
      cases ha : anyKeyStartswith props "cube:" with
      | error e => rw [ha] at h; simp [ebind_err] at h
      | ok b =>
        rw [ha, ebind_ok] at h
        cases b with
        | true =>
          simp only [if_pos] at h
          cases h
          exact ⟨(STACVersionRange.set_min_ok _ hok).1,
            (STACVersionRange.set_min_ok _ hok).2⟩
        | false =>
          simp at h
          cases h
          exact ⟨hok, STACVersionRange.shrinksTo_refl _⟩
  · cases h
    exact ⟨hok, STACVersionRange.shrinksTo_refl _⟩

theorem datetime_range_block_shrink (ot : Option STACObjectType) (d : JObj) :
    BlockShrinks (datetime_range_block ot d) := by
  intro st st' h hok
  unfold datetime_range_block at h
  split at h
  · cases hp : getItem d "properties" with
    | error e => rw [hp] at h; simp [ebind_err] at h
    | ok props =>
      rw [hp, ebind_ok] at h
      cases ha : pyIn "dtr:start_datetime" props with
      | error e => rw [ha] at h; simp [ebind_err] at h
      | ok b =>
        rw [ha, ebind_ok] at h
        cases b with
        | true =>
          simp only [if_pos] at h
          cases h
          exact ⟨(STACVersionRange.set_min_ok _ hok).1,
            (STACVersionRange.set_min_ok _ hok).2⟩
        | false =>
          simp at h
          cases h
          exact ⟨hok, STACVersionRange.shrinksTo_refl _⟩
  · cases h
    exact ⟨hok, STACVersionRange.shrinksTo_refl _⟩

theorem pointcloud_block_shrink (ot : Option STACObjectType) (d : JObj) :
    BlockShrinks (pointcloud_block ot d) := by
  intro st st' h hok
  unfold pointcloud_block at h
  split at h
  · cases hp : getItem d "properties" with
    | error e => rw [hp] at h; simp [ebind_err] at h
    | ok props =>
      rw [hp, ebind_ok] at h
      cases ha : anyKeyStartswith props "pc:" with
      | error e => rw [ha] at h; simp [ebind_err] at h
      | ok b =>
        rw [ha, ebind_ok] at h
        cases b with
        | true =>
          simp only [if_pos] at h
          cases h
          exact ⟨(STACVersionRange.set_min_ok _ hok).1,
            (STACVersionRange.set_min_ok _ hok).2⟩
        | false =>
          simp at h
          cases h
          exact ⟨hok, STACVersionRange.shrinksTo_refl _⟩
  · cases h
    exact ⟨hok, STACVersionRange.shrinksTo_refl _⟩

theorem scientific_block_shrink (ot : Option STACObjectType) (d : JObj) :
    BlockShrinks (scientific_block ot d) := by
  intro st st' h hok
  unfold scientific_block at h
  split at h
  · split at h
    · cases hp : getItem d "properties" with
      | error e => rw [hp] at h; simp [ebind_err] at h
      | ok props =>
        rw [hp, ebind_ok] at h
        cases hk : propKeys props with
        | error e => rw [hk] at h; simp [ebind_err] at h
        | ok keys =>
          rw [hk, ebind_ok] at h
          split at h
          · cases h
            exact ⟨(STACVersionRange.set_min_ok _ hok).1,
              (STACVersionRange.set_min_ok _ hok).2⟩
          · cases h
            exact ⟨hok, STACVersionRange.shrinksTo_refl _⟩
    · cases h
      exact ⟨hok, STACVersionRange.shrinksTo_refl _⟩
  · cases h
    exact ⟨hok, STACVersionRange.shrinksTo_refl _⟩

theorem single_file_stac_block_shrink (ot : Option STACObjectType) (d : JObj) :
    BlockShrinks (single_file_stac_block ot d) := by
  intro st st' h hok
  unfold single_file_stac_block at h
  split at h
  · split at h
    · split at h
      · cases h
        have h1 := STACVersionRange.set_min_ok (r := st.2) ⟨"0.8.0"⟩ hok
        have h2 := STACVersionRange.set_max_ok (r := st.2.set_min ⟨"0.8.0"⟩)
          ⟨"0.8.1"⟩ h1.1
        exact ⟨h2.1, STACVersionRange.shrinksTo_trans h1.2 h2.2⟩
      · cases h
        exact ⟨(STACVersionRange.set_min_ok _ hok).1,
          (STACVersionRange.set_min_ok _ hok).2⟩
    · cases h
      exact ⟨hok, STACVersionRange.shrinksTo_refl _⟩
  · cases h
    exact ⟨hok, STACVersionRange.shrinksTo_refl _⟩

/-- "The output range is valid and a sub-interval of the input range." -/
def OS (r r' : STACVersionRange) : Prop := r'.ok ∧ r.shrinksTo r'

theorem OS_refl {r : STACVersionRange} (h : r.ok) : OS r r :=
  ⟨h, STACVersionRange.shrinksTo_refl r⟩

theorem OS_trans {r1 r2 r3 : STACVersionRange} (h1 : OS r1 r2) (h2 : OS r2 r3) :
    OS r1 r3 :=
  ⟨h2.1, STACVersionRange.shrinksTo_trans h1.2 h2.2⟩

theorem OS_set_min {r : STACVersionRange} (v : STACVersionID) (h : r.ok) :
    OS r (r.set_min v) :=
  ⟨(STACVersionRange.set_min_ok v h).1, (STACVersionRange.set_min_ok v h).2⟩

theorem OS_set_max {r : STACVersionRange} (v : STACVersionID) (h : r.ok) :
    OS r (r.set_max v) :=
  ⟨(STACVersionRange.set_max_ok v h).1, (STACVersionRange.set_max_ok v h).2⟩

theorem OS_set_to_single {r : STACVersionRange} (v : STACVersionID) (h : r.ok) :
    OS r (r.set_to_single v) :=
  ⟨(STACVersionRange.set_to_single_ok v h).1,
   (STACVersionRange.set_to_single_ok v h).2⟩

theorem OS_step_min {r1 r2 : STACVersionRange} (v : STACVersionID)
    (h : OS r1 r2) : OS r1 (r2.set_min v) :=
  OS_trans h (OS_set_min v h.1)

theorem OS_step_max {r1 r2 : STACVersionRange} (v : STACVersionID)
    (h : OS r1 r2) : OS r1 (r2.set_max v) :=
  OS_trans h (OS_set_max v h.1)

theorem OS_ite_min {r1 r2 : STACVersionRange} (c : Bool) (v : STACVersionID)
    (h : OS r1 r2) : OS r1 (if c then r2.set_min v else r2) := by
  cases c with
  | true => exact OS_step_min v h
  | false => exact h

theorem OS_ite_max {r1 r2 : STACVersionRange} (c : Bool) (v : STACVersionID)
    (h : OS r1 r2) : OS r1 (if c then r2.set_max v else r2) := by
  cases c with
  | true => exact OS_step_max v h
  | false => exact h


theorem eo_epsg_step_shrink (props : JSON) (vr vr' : STACVersionRange)
    (h : eo_epsg_step props vr = .ok vr') (hok : vr.ok) : OS vr vr' := by
  unfold eo_epsg_step at h
  cases h1 : pyIn "eo:epsg" props with
  | error e => rw [h1] at h; simp [ebind_err] at h
  | ok b =>
    rw [h1, ebind_ok] at h
    cases b with
    | false =>
      simp only [Bool.false_eq_true, reduceIte, pure, Except.pure,
        Except.ok.injEq] at h
      subst h
      exact OS_refl hok
    | true =>
      simp only [reduceIte] at h
      cases h2 : getItem2 props "eo:epsg" with
      | error e => rw [h2] at h; simp [ebind_err] at h
      | ok v =>
        rw [h2, ebind_ok] at h
        simp only [pure, Except.pure, Except.ok.injEq] at h
        subst h
        exact OS_ite_min (isNull v) _ (OS_refl hok)

theorem eo_crs_step_shrink (props : JSON) (vr vr' : STACVersionRange)
    (h : eo_crs_step props vr = .ok vr') (hok : vr.ok) : OS vr vr' := by
  unfold eo_crs_step at h
  cases h1 : pyIn "eo:crs" props with
  | error e => rw [h1] at h; simp [ebind_err] at h
  | ok b =>
    rw [h1, ebind_ok] at h
    cases b with
    | false =>
      simp only [Bool.false_eq_true, reduceIte, pure, Except.pure,
        Except.ok.injEq] at h
      subst h
      exact OS_refl hok
    | true =>
      simp only [reduceIte, pure, Except.pure, Except.ok.injEq] at h
      subst h
      exact OS_step_max _ (OS_refl hok)

theorem eo_constellation_step_shrink (props : JSON) (vr vr' : STACVersionRange)
    (h : eo_constellation_step props vr = .ok vr') (hok : vr.ok) : OS vr vr' := by
  unfold eo_constellation_step at h
  cases h1 : pyIn "eo:constellation" props with
  | error e => rw [h1] at h; simp [ebind_err] at h
  | ok b =>
    rw [h1, ebind_ok] at h
    cases b with
    | false =>
      simp only [Bool.false_eq_true, reduceIte, pure, Except.pure,
        Except.ok.injEq] at h
      subst h
      exact OS_refl hok
    | true =>
      simp only [reduceIte, pure, Except.pure, Except.ok.injEq] at h
      subst h
      exact OS_step_min _ (OS_refl hok)

theorem eo_block_shrink (ot : Option STACObjectType) (d : JObj) :
    BlockShrinks (eo_block ot d) := by
  intro st st' h hok
  unfold eo_block at h
  split at h
  · cases hp : getItem d "properties" with
    | error e => rw [hp] at h; simp [ebind_err] at h
    | ok props =>
      rw [hp, ebind_ok] at h
      cases ha : anyKeyStartswith props "eo:" with
      | error e => rw [ha] at h; simp [ebind_err] at h
      | ok b =>
        rw [ha, ebind_ok] at h
        cases b with
        | false =>
          simp only [Bool.false_eq_true, reduceIte, epure_bind] at h
          split at h
          · cases h
            exact OS_step_max _ (OS_refl hok)
          · cases h
            exact OS_refl hok
        | true =>
          simp only [reduceIte] at h
          cases h1 : eo_epsg_step props st.2 with
          | error e => rw [h1] at h; simp [ebind_err] at h
          | ok vr1 =>
            rw [h1, ebind_ok] at h
            have hos1 := eo_epsg_step_shrink props st.2 vr1 h1 hok
            cases h2 : eo_crs_step props vr1 with
            | error e => rw [h2] at h; simp [ebind_err] at h
            | ok vr2 =>
              rw [h2, ebind_ok] at h
              have hos2 := OS_trans hos1 (eo_crs_step_shrink props vr1 vr2 h2 hos1.1)
              cases h3 : eo_constellation_step props vr2 with
              | error e => rw [h3] at h; simp [ebind_err] at h
              | ok vr3 =>
                rw [h3, ebind_ok, epure_bind] at h
                have hos3 := OS_trans hos2
                  (eo_constellation_step_shrink props vr2 vr3 h3 hos2.1)
                simp only [bind, Except.bind, pure, Except.pure,
                  Except.ok.injEq] at h
                split at h
                · cases h
                  exact OS_step_max _ hos3
                · cases h
                  exact hos3
  · cases h
    exact OS_refl hok

theorem sar_max_loop_shrink (props : JSON) (L : List String) :
    ∀ vr vr', sar_max_loop props vr L = .ok vr' → vr.ok → OS vr vr' := by
  induction L with
  | nil =>
    intro vr vr' h hok
    unfold sar_max_loop at h
    cases h
    exact OS_refl hok
  | cons prop rest ih =>
    intro vr vr' h hok
    unfold sar_max_loop at h
    cases h1 : pyIn prop props with
    | error e => rw [h1] at h; simp [ebind_err] at h
    | ok b =>
      rw [h1, ebind_ok] at h
      cases b with
      | false =>
        simp only [Bool.false_eq_true, reduceIte, epure_bind] at h
        exact ih vr vr' h hok
      | true =>
        simp only [reduceIte] at h
        cases h2 : getItem2 props prop with
        | error e => rw [h2] at h; simp [ebind_err] at h
        | ok v =>
          rw [h2, ebind_ok, epure_bind] at h
          have hos1 : OS vr (if isList v then vr.set_max ⟨"0.6.2"⟩ else vr) :=
            OS_ite_max (isList v) _ (OS_refl hok)
          exact OS_trans hos1 (ih _ vr' h hos1.1)

theorem sar_min_loop_shrink (props : JSON) (L : List String) :
    ∀ vr vr', sar_min_loop props vr L = .ok vr' → vr.ok → OS vr vr' := by
  induction L with
  | nil =>
    intro vr vr' h hok
    unfold sar_min_loop at h
    cases h
    exact OS_refl hok
  | cons prop rest ih =>
    intro vr vr' h hok
    unfold sar_min_loop at h
    cases h1 : pyIn prop props with
    | error e => rw [h1] at h; simp [ebind_err] at h
    | ok b =>
      rw [h1, ebind_ok] at h
      cases b with
      | false =>
        simp only [Bool.false_eq_true, reduceIte, epure_bind] at h
        exact ih vr vr' h hok
      | true =>
        simp only [reduceIte, epure_bind] at h
        have hos1 : OS vr (vr.set_min ⟨"0.7.0"⟩) := OS_set_min _ hok
        exact OS_trans hos1 (ih _ vr' h hos1.1)

theorem sar_seq_check_shrink (props : JSON) (vr vr' : STACVersionRange)
    (h : sar_seq_check props vr = .ok vr') (hok : vr.ok) : OS vr vr' := by
  unfold sar_seq_check at h
  split at h
  · exact sar_max_loop_shrink props sar_seq_props vr vr' h hok
  · cases h
    exact OS_refl hok

theorem sar_v070_check_shrink (props : JSON) (vr vr' : STACVersionRange)
    (h : sar_v070_check props vr = .ok vr') (hok : vr.ok) : OS vr vr' := by
  unfold sar_v070_check at h
  split at h
  · cases h1 : sar_min_loop props vr sar_v070_props with
    | error e => rw [h1] at h; simp [ebind_err] at h
    | ok vr1 =>
      rw [h1, ebind_ok] at h
      have hos1 := sar_min_loop_shrink props sar_v070_props vr vr1 h1 hok
      cases h2 : pyIn "sar:absolute_orbit" props with
      | error e => rw [h2] at h; simp [ebind_err] at h
      | ok b =>
        rw [h2, ebind_ok] at h
        cases b with
        | false =>
          simp only [Bool.false_eq_true, reduceIte, pure, Except.pure,
            Except.ok.injEq] at h
          subst h
          exact hos1
        | true =>
          simp only [reduceIte] at h
          cases h3 : getItem2 props "sar:absolute_orbit" with
          | error e => rw [h3] at h; simp [ebind_err] at h
          | ok v =>
            rw [h3, ebind_ok] at h
            simp only [pure, Except.pure, Except.ok.injEq] at h
            subst h
            exact OS_trans hos1 (OS_ite_min (!(isList v)) _ (OS_refl hos1.1))
  · cases h
    exact OS_refl hok

theorem sar_off_nadir_check_shrink (props : JSON) (vr vr' : STACVersionRange)
    (h : sar_off_nadir_check props vr = .ok vr') (hok : vr.ok) : OS vr vr' := by
  unfold sar_off_nadir_check at h
  cases h1 : pyIn "sar:off_nadir" props with
  | error e => rw [h1] at h; simp [ebind_err] at h
  | ok b =>
    rw [h1, ebind_ok] at h
    cases b with
    | false =>
      simp only [Bool.false_eq_true, reduceIte, pure, Except.pure,
        Except.ok.injEq] at h
      subst h
      exact OS_refl hok
    | true =>
      simp only [reduceIte, pure, Except.pure, Except.ok.injEq] at h
      subst h
      exact OS_step_max _ (OS_refl hok)

theorem sar_block_shrink (ot : Option STACObjectType) (d : JObj) :
    BlockShrinks (sar_block ot d) := by
  intro st st' h hok
  unfold sar_block at h
  split at h
  · cases hp : getItem d "properties" with
    | error e => rw [hp] at h; simp [ebind_err] at h
    | ok props =>
      rw [hp, ebind_ok] at h
      cases ha : anyKeyStartswith props "sar:" with
      | error e => rw [ha] at h; simp [ebind_err] at h
      | ok b =>
        rw [ha, ebind_ok] at h
        cases b with
        | false =>
          simp only [Bool.false_eq_true, reduceIte, pure, Except.pure,
            Except.ok.injEq] at h
          subst h
          exact OS_refl hok
        | true =>
          simp only [reduceIte] at h
          have hos0 : OS st.2 (st.2.set_min ⟨"0.6.2"⟩) := OS_set_min _ hok
          cases h1 : sar_seq_check props (st.2.set_min ⟨"0.6.2"⟩) with
          | error e => rw [h1] at h; simp [ebind_err] at h
          | ok vr1 =>
            rw [h1, ebind_ok] at h
            have hos1 := OS_trans hos0
              (sar_seq_check_shrink props _ vr1 h1 hos0.1)
            cases h2 : sar_v070_check props vr1 with
            | error e => rw [h2] at h; simp [ebind_err] at h
            | ok vr2 =>
              rw [h2, ebind_ok] at h
              have hos2 := OS_trans hos1
                (sar_v070_check_shrink props vr1 vr2 h2 hos1.1)
              cases h3 : sar_off_nadir_check props vr2 with
              | error e => rw [h3] at h; simp [ebind_err] at h
              | ok vr3 =>
                rw [h3, ebind_ok] at h
                simp only [pure, Except.pure, Except.ok.injEq] at h
                subst h
                exact OS_trans hos2
                  (sar_off_nadir_check_shrink props vr2 vr3 h3 hos2.1)
  · cases h
    exact OS_refl hok

theorem OS_ite_single {r1 r2 : STACVersionRange} (c : Bool) (v : STACVersionID)
    (h : OS r1 r2) : OS r1 (if c then r2.set_to_single v else r2) := by
  cases c with
  | true => exact OS_trans h (OS_set_to_single v h.1)
  | false => exact h

theorem identify_stac_extensions_shrink (ot : Option STACObjectType) (d : JObj)
    (vr : STACVersionRange) (st' : ExtState)
    (h : identify_stac_extensions ot d vr = .ok st') (hok : vr.ok) :
    OS vr st'.2 := by
  unfold identify_stac_extensions at h
  cases h1 : assets_block ot d ([], vr) with
  | error e => rw [h1] at h; simp [ebind_err] at h
  | ok st1 =>
    rw [h1, ebind_ok] at h
    have hos1 := assets_block_shrink ot d _ st1 h1 hok
    cases h2 : checksum_block d st1 with
    | error e => rw [h2] at h; simp [ebind_err] at h
    | ok st2 =>
      rw [h2, ebind_ok] at h
      have hos2 := OS_trans hos1 (checksum_block_shrink d st1 st2 h2 hos1.1)
      cases h3 : datacube_block ot d st2 with
      | error e => rw [h3] at h; simp [ebind_err] at h
      | ok st3 =>
        rw [h3, ebind_ok] at h
        have hos3 := OS_trans hos2 (datacube_block_shrink ot d st2 st3 h3 hos2.1)
        cases h4 : datetime_range_block ot d st3 with
        | error e => rw [h4] at h; simp [ebind_err] at h
        | ok st4 =>
          rw [h4, ebind_ok] at h
          have hos4 := OS_trans hos3
            (datetime_range_block_shrink ot d st3 st4 h4 hos3.1)
          cases h5 : eo_block ot d st4 with
          | error e => rw [h5] at h; simp [ebind_err] at h
          | ok st5 =>
            rw [h5, ebind_ok] at h
            have hos5 := OS_trans hos4 (eo_block_shrink ot d st4 st5 h5 hos4.1)
            cases h6 : pointcloud_block ot d st5 with
            | error e => rw [h6] at h; simp [ebind_err] at h
            | ok st6 =>
              rw [h6, ebind_ok] at h
              have hos6 := OS_trans hos5
                (pointcloud_block_shrink ot d st5 st6 h6 hos5.1)
              cases h7 : sar_block ot d st6 with
              | error e => rw [h7] at h; simp [ebind_err] at h
              | ok st7 =>
                rw [h7, ebind_ok] at h
                have hos7 := OS_trans hos6
                  (sar_block_shrink ot d st6 st7 h7 hos6.1)
                cases h8 : scientific_block ot d st7 with
                | error e => rw [h8] at h; simp [ebind_err] at h
                | ok st8 =>
                  rw [h8, ebind_ok] at h
                  have hos8 := OS_trans hos7
                    (scientific_block_shrink ot d st7 st8 h8 hos7.1)
                  cases h9 : single_file_stac_block ot d st8 with
                  | error e => rw [h9] at h; simp [ebind_err] at h
                  | ok st9 =>
                    rw [h9, ebind_ok] at h
                    have hos9 := OS_trans hos8
                      (single_file_stac_block_shrink ot d st8 st9 h9 hos8.1)
                    simp only [pure, Except.pure, Except.ok.injEq] at h
                    subst h
                    exact hos9

theorem initial_ok : STACVersionRange.initial.ok := by
  show STACVersionID.blt ⟨DEFAULT_STAC_VERSION⟩ ⟨"0.4.0"⟩ = false
  rfl

theorem version_phase_shrink (ot : Option STACObjectType) (d : JObj)
    (vr' : STACVersionRange) (h : version_phase ot d = .ok vr') :
    OS STACVersionRange.initial vr' := by
  unfold version_phase at h
  by_cases hsv : isNull (dictGet d "stac_version") = true
  · rw [if_pos hsv] at h
    simp only [pure, Except.pure, Except.ok.injEq] at h
    subst h
    unfold ext_presence_raise
    refine OS_ite_min _ _ ?_
    unfold default_bounds
    split
    · exact OS_set_max _ initial_ok
    · split
      · exact OS_set_max _ initial_ok
      · exact OS_set_min _ initial_ok
  · rw [if_neg hsv] at h
    cases h1 : coerceVersionID (dictGet d "stac_version") with
    | error e =>
      rw [h1] at h
      simp [ebind_err] at h
    | ok v =>
      rw [h1, ebind_ok] at h
      simp only [pure, Except.pure, Except.ok.injEq] at h
      subst h
      unfold ext_presence_raise
      exact OS_ite_min _ _ (OS_set_to_single v initial_ok)

theorem extensions_phase_shrink (ot : Option STACObjectType) (d : JObj)
    (vr : STACVersionRange) (out : JSON × STACVersionRange)
    (h : extensions_phase ot d vr = .ok out) (hok : vr.ok) : OS vr out.2 := by
  unfold extensions_phase at h
  split at h
  · split at h
    · cases h1 : identify_stac_extensions ot d vr with
      | error e => rw [h1] at h; simp [ebind_err] at h
      | ok st1 =>
        rw [h1, ebind_ok] at h
        have hos1 := identify_stac_extensions_shrink ot d vr st1 h1 hok
        simp only [pure, Except.pure, Except.ok.injEq] at h
        subst h
        exact hos1
    · simp only [pure, Except.pure, Except.ok.injEq] at h
      subst h
      exact OS_refl hok
  · simp only [pure, Except.pure, Except.ok.injEq] at h
    subst h
    exact OS_refl hok

theorem self_link_check_shrink (d : JObj) (vr vr' : STACVersionRange)
    (h : self_link_check d vr = .ok vr') (hok : vr.ok) : OS vr vr' := by
  unfold self_link_check at h
  split at h
  · cases h1 : getItem d "links" with
    | error e => rw [h1] at h; simp [ebind_err] at h
    | ok links =>
      rw [h1, ebind_ok] at h
      cases h2 : anyRelSelf links with
      | error e => rw [h2] at h; simp [ebind_err] at h
      | ok b =>
        rw [h2, ebind_ok] at h
        split at h
        · cases h
          exact OS_step_min _ (OS_refl hok)
        · cases h
          exact OS_refl hok
  · cases h
    exact OS_refl hok

theorem final_checks_phase_shrink (d : JObj) (vr vr' : STACVersionRange)
    (h : final_checks_phase d vr = .ok vr') (hok : vr.ok) : OS vr vr' := by
  unfold final_checks_phase at h
  split at h
  · split at h
    · have hos1 : OS vr (links_dict_check d vr) := by
        unfold links_dict_check
        exact OS_ite_single _ _ (OS_refl hok)
      exact OS_trans hos1
        (self_link_check_shrink d (links_dict_check d vr) vr' h hos1.1)
    · cases h
      exact OS_refl hok
  · cases h
    exact OS_refl hok

theorem identify_stac_object_shrink (d : JObj) (desc : STACJSONDescription)
    (h : identify_stac_object d = .ok desc) :
    OS STACVersionRange.initial desc.version_range := by
  unfold identify_stac_object at h
  cases h1 : identify_stac_object_type d with
  | error e => rw [h1] at h; simp [ebind_err] at h
  | ok ot =>
    rw [h1, ebind_ok] at h
    cases h2 : version_phase ot d with
    | error e => rw [h2] at h; simp [ebind_err] at h
    | ok vr1 =>
      rw [h2, ebind_ok] at h
      have hos1 := version_phase_shrink ot d vr1 h2
      cases h3 : extensions_phase ot d vr1 with
      | error e => rw [h3] at h; simp [ebind_err] at h
      | ok out =>
        rw [h3, ebind_ok] at h
        have hos2 := OS_trans hos1 (extensions_phase_shrink ot d vr1 out h3 hos1.1)
        obtain ⟨se, vr2⟩ := out
        dsimp only at h hos2
        cases h4 : final_checks_phase d vr2 with
        | error e => rw [h4] at h; simp [ebind_err] at h
        | ok vr3 =>
          rw [h4, ebind_ok] at h
          have hos3 := OS_trans hos2 (final_checks_phase_shrink d vr2 vr3 h4 hos2.1)
          cases h5 : split_extensions se with
          | error e => rw [h5] at h; simp [ebind_err] at h
          | ok pr =>
            rw [h5, ebind_ok] at h
            obtain ⟨ce, cu⟩ := pr
            simp only [pure, Except.pure, Except.ok.injEq] at h
            subst h
            exact hos3

/-! ## Facts about identify_stac_object_type -/

theorem identify_type_ne_itemcollection (d : JObj) (r : Option STACObjectType)
    (h : identify_stac_object_type d = .ok r) :
    r ≠ some STACObjectType.ITEMCOLLECTION := by
  unfold identify_stac_object_type at h
  cases hp : pre10_itemcollection_check d with
  | error e =>
    rw [hp] at h
    simp [ebind_err] at h
  | ok ot0 =>
    rw [hp, ebind_ok] at h
    simp only [pure, Except.pure, Except.ok.injEq] at h
    subst h
    split
    · simp
    · split <;> simp

theorem pre10_check_ok (d : JObj)
    (hsv : ∀ v, lookupKey d "stac_version" = some v → ∃ s, v = JSON.str s) :
    ∃ x, pre10_itemcollection_check d = .ok x := by
  unfold pre10_itemcollection_check
  by_cases h1 : (containsKey d "type" && !(containsKey d "assets")) = true
  · rw [if_pos h1]
    by_cases h2 : containsKey d "stac_version" = true
    · rw [if_pos h2]
      unfold containsKey at h2
      cases hl : lookupKey d "stac_version" with
      | none => rw [hl] at h2; simp at h2
      | some v =>
        obtain ⟨s, hv⟩ := hsv v hl
        subst hv
        have hget : getItem d "stac_version" = .ok (JSON.str s) := by
          unfold getItem
          rw [hl]
        rw [hget, ebind_ok]
        rw [show startswith (JSON.str s) "0" = .ok (pyStartsWith s "0") from rfl,
          ebind_ok]
        cases hb : pyStartsWith s "0" with
        | false => exact ⟨none, by simp [pure, Except.pure]⟩
        | true =>
          simp only [reduceIte]
          have h1' : containsKey d "type" = true := by
            cases hc : containsKey d "type" with
            | true => rfl
            | false => rw [hc] at h1; simp at h1
          unfold containsKey at h1'
          cases hl2 : lookupKey d "type" with
          | none => rw [hl2] at h1'; simp at h1'
          | some t =>
            have hget2 : getItem d "type" = .ok t := by
              unfold getItem
              rw [hl2]
            rw [hget2, ebind_ok]
            cases ht : jsonEqStr t "FeatureCollection" with
            | false => exact ⟨none, by simp [pure, Except.pure]⟩
            | true => exact ⟨some STACObjectType.ITEMCOLLECTION, by simp [pure, Except.pure]⟩
    · rw [if_neg h2]
      exact ⟨none, rfl⟩
  · rw [if_neg h1]
    exact ⟨none, rfl⟩

theorem identify_type_eval (d : JObj)
    (hsv : ∀ v, lookupKey d "stac_version" = some v → ∃ s, v = JSON.str s) :
    identify_stac_object_type d =
      .ok (if containsKey d "extent" then some STACObjectType.COLLECTION
        else if containsKey d "assets" then some STACObjectType.ITEM
        else some STACObjectType.CATALOG) := by
  obtain ⟨x, hx⟩ := pre10_check_ok d hsv
  unfold identify_stac_object_type
  rw [hx, ebind_ok]
  rfl

/-! ## Facts about _split_extensions -/

theorem split_loop_str (l : List String) :
    split_loop (l.map JSON.str) = .ok (splitPure l) := by
  induction l with
  | nil => rfl
  | cons e rest ih =>
    unfold split_loop splitPure
    simp only [List.map_cons]
    rw [show asStrForEndswith (JSON.str e) = .ok e from rfl, ebind_ok, ih,
      ebind_ok]
    split <;> rfl

theorem split_extensions_str (l : List String) :
    split_extensions (JSON.arr (l.map JSON.str)) = .ok (splitPure l) := by
  unfold split_extensions
  rw [show pyIter (JSON.arr (l.map JSON.str)) = .ok (l.map JSON.str) from rfl,
    ebind_ok]
  exact split_loop_str l

/-! ## Facts about version_phase -/

/-- A declared string version pins the range to that value clamped into the
initial interval, whatever `stac_extensions` holds (a later
`set_min("0.8.0")` cannot move an already-single range). -/
theorem version_phase_pinned (ot : Option STACObjectType) (d : JObj)
    (s : String) (hsv : dictGet d "stac_version" = JSON.str s) :
    version_phase ot d =
      .ok ⟨STACVersionRange.initial.clamp ⟨s⟩,
           STACVersionRange.initial.clamp ⟨s⟩⟩ := by
  unfold version_phase
  rw [hsv, show isNull (JSON.str s) = false from rfl]
  simp only [Bool.false_eq_true, reduceIte,
    show coerceVersionID (JSON.str s) = Except.ok (⟨s⟩ : STACVersionID) from rfl,
    ebind_ok]
  rw [STACVersionRange.set_to_single_eq _ _ initial_ok]
  unfold ext_presence_raise
  rw [STACVersionRange.set_min_of_single _ rfl]
  split <;> rfl

/-- No declared version and no (non-null) `stac_extensions`: the default
bounds depend only on the object type. -/
theorem version_phase_default (ot : Option STACObjectType) (d : JObj)
    (hsv : dictGet d "stac_version" = JSON.null)
    (hext : dictGet d "stac_extensions" = JSON.null) :
    version_phase ot d =
      .ok (if ot = some STACObjectType.CATALOG ∨
              ot = some STACObjectType.COLLECTION then
            ⟨⟨"0.4.0"⟩, ⟨"0.5.2"⟩⟩
          else if ot = some STACObjectType.ITEM then
            ⟨⟨"0.4.0"⟩, ⟨"0.7.0"⟩⟩
          else
            ⟨⟨"0.8.0"⟩, ⟨DEFAULT_STAC_VERSION⟩⟩) := by
  unfold version_phase
  rw [hsv, hext]
  simp only [show isNull JSON.null = true from rfl, reduceIte]
  unfold ext_presence_raise
  simp only [show isNull JSON.null = true from rfl, Bool.not_true,
    Bool.false_eq_true, reduceIte]
  unfold default_bounds
  split
  · rfl
  · split <;> rfl

/-- No declared version but a non-null `stac_extensions` value: the minimum
is raised to "0.8.0", clamped at the per-type default maximum. -/
theorem version_phase_default_ext (ot : Option STACObjectType) (d : JObj)
    (hsv : dictGet d "stac_version" = JSON.null)
    (hext : isNull (dictGet d "stac_extensions") = false) :
    version_phase ot d =
      .ok (if ot = some STACObjectType.CATALOG ∨
              ot = some STACObjectType.COLLECTION then
            ⟨⟨"0.5.2"⟩, ⟨"0.5.2"⟩⟩
          else if ot = some STACObjectType.ITEM then
            ⟨⟨"0.7.0"⟩, ⟨"0.7.0"⟩⟩
          else
            ⟨⟨"0.8.0"⟩, ⟨DEFAULT_STAC_VERSION⟩⟩) := by
  unfold version_phase
  rw [hsv]
  simp only [show isNull JSON.null = true from rfl, reduceIte]
  unfold ext_presence_raise
  rw [hext]
  simp only [Bool.not_false, reduceIte]
  unfold default_bounds
  split
  · rfl
  · split <;> rfl

/-- A declared version that is neither null nor a string raises an
`AttributeError` inside the comparison. -/
theorem version_phase_nonstring (ot : Option STACObjectType) (d : JObj)
    (v : JSON) (hsv : dictGet d "stac_version" = v) (hv1 : isNull v = false)
    (hv2 : ∀ s, v ≠ JSON.str s) :
    version_phase ot d = .error (.attributeError "version_core") := by
  unfold version_phase
  rw [hsv, hv1]
  simp only [Bool.false_eq_true, reduceIte]
  cases v with
  | null => simp [isNull] at hv1
  | str s => exact absurd rfl (hv2 s)
  | bool b => rfl
  | num n => rfl
  | arr items => rfl
  | obj entries => rfl

/-! ## Facts about extensions_phase -/

/-- With a None `stac_extensions` lookup, an object type other than
ITEMCOLLECTION and an upper bound not before "0.8.0", the inference is
skipped and the extension value is an empty list. -/
theorem extensions_phase_skip (ot : Option STACObjectType) (d : JObj)
    (vr : STACVersionRange) (hext : dictGet d "stac_extensions" = JSON.null)
    (hne : ot ≠ some STACObjectType.ITEMCOLLECTION)
    (hnot : vr.is_earlier_than ⟨"0.8.0"⟩ = false) :
    extensions_phase ot d vr = .ok (JSON.arr [], vr) := by
  unfold extensions_phase
  rw [hext]
  simp only [show isNull JSON.null = true from rfl, reduceIte]
  have hcond : inference_condition ot vr = false := by
    unfold inference_condition
    rw [hnot]
    simp [hne]
  rw [hcond]
  rfl

/-- With a None `stac_extensions` lookup and an upper bound before "0.8.0",
the structural inference runs and its result list is the extension value. -/
theorem extensions_phase_run (ot : Option STACObjectType) (d : JObj)
    (vr : STACVersionRange) (exts : List String) (vr1 : STACVersionRange)
    (hext : dictGet d "stac_extensions" = JSON.null)
    (hearly : vr.is_earlier_than ⟨"0.8.0"⟩ = true)
    (hid : identify_stac_extensions ot d vr = .ok (exts, vr1)) :
    extensions_phase ot d vr = .ok (JSON.arr (exts.map JSON.str), vr1) := by
  unfold extensions_phase
  rw [hext]
  simp only [show isNull JSON.null = true from rfl, reduceIte]
  have hcond : inference_condition ot vr = true := by
    unfold inference_condition
    rw [hearly]
    rfl
  rw [hcond]
  simp only [reduceIte]
  rw [hid, ebind_ok]
  rfl

/-! ## Claim theorems -/

/-- C1 (counterexample): applying the same multiset of `set_min`/`set_max`
calls in different orders does NOT always yield the same final range: from
the default range, `set_min("2.0.0")` then `set_max("0.1.0")` pins to the
default maximum, while the opposite order pins to "0.4.0". -/
theorem C1_counterexample :
    (STACVersionRange.initial.set_min ⟨"2.0.0"⟩).set_max ⟨"0.1.0"⟩ ≠
      (STACVersionRange.initial.set_max ⟨"0.1.0"⟩).set_min ⟨"2.0.0"⟩ := by
  decide

/-- C1 (amended): for a range satisfying `min_version <= max_version`,
narrowing calls of the same kind commute — swapping two adjacent `set_min`
calls (or two adjacent `set_max` calls) leaves the final range unchanged, so
any reordering of a multiset of same-kind calls yields the same range; mixed
`set_min`/`set_max` multisets need not commute. -/
theorem C1_same_kind_narrowing_commutes (r : STACVersionRange)
    (a b : STACVersionID) (h : r.min_version.ble r.max_version = true) :
    (r.set_min a).set_min b = (r.set_min b).set_min a ∧
    (r.set_max a).set_max b = (r.set_max b).set_max a := by
  have hok : r.ok := STACVersionID.ble_iff_le.mp h
  exact ⟨STACVersionRange.set_min_comm r a b hok,
    STACVersionRange.set_max_comm r a b hok⟩

/-- C1 (witness): the commutation law at a concrete range and versions. -/
theorem C1_same_kind_narrowing_commutes_witness :
    (STACVersionRange.initial.set_min ⟨"0.6.0"⟩).set_min ⟨"0.5.0"⟩ =
      (STACVersionRange.initial.set_min ⟨"0.5.0"⟩).set_min ⟨"0.6.0"⟩ ∧
    (STACVersionRange.initial.set_max ⟨"0.6.0"⟩).set_max ⟨"0.5.0"⟩ =
      (STACVersionRange.initial.set_max ⟨"0.5.0"⟩).set_max ⟨"0.6.0"⟩ :=
  C1_same_kind_narrowing_commutes STACVersionRange.initial ⟨"0.6.0"⟩ ⟨"0.5.0"⟩
    (by decide)

/-- C2 (counterexample): "1.0.0-alpha" and "1.0.0-beta" have equal cores and
both carry prerelease suffixes; "beta" is lexicographically greater than
"alpha", so per the claim the beta version should be the smaller one — but
the code orders alpha below beta (plain, not inverted, suffix order). -/
theorem C2_counterexample :
    STACVersionID.blt ⟨"1.0.0-alpha"⟩ ⟨"1.0.0-beta"⟩ = true ∧
    STACVersionID.blt ⟨"1.0.0-beta"⟩ ⟨"1.0.0-alpha"⟩ = false :=
  ⟨rfl, rfl⟩

/-- C2 (amended): on equal cores, a version with a prerelease suffix is
smaller than one without a suffix, and two prereleased versions compare by
PLAIN lexicographic order of their suffixes (the lexicographically greater
suffix gives the greater version, not the smaller one). -/
theorem C2_prerelease_order (a b : STACVersionID)
    (hcore : a.version_core = b.version_core) :
    (∀ pa pb, a.version_prerelease = some pa → b.version_prerelease = some pb →
      (a.blt b = true ↔ strLtb pa pb = true)) ∧
    (∀ pa, a.version_prerelease = some pa → b.version_prerelease = none →
      a.blt b = true) := by
  unfold STACVersionID.blt
  rw [hcore, strLtb_irrefl]
  simp only [Bool.false_eq_true, reduceIte]
  constructor
  · intro pa pb hpa hpb
    rw [hpa, hpb]
  · intro pa hpa hpb
    rw [hpa, hpb]

/-- C2 (witness): the amended suffix rule at concrete versions. -/
theorem C2_prerelease_order_witness :
    STACVersionID.blt ⟨"1.0.0-alpha"⟩ ⟨"1.0.0-beta"⟩ = true ↔
      strLtb "alpha" "beta" = true :=
  (C2_prerelease_order ⟨"1.0.0-alpha"⟩ ⟨"1.0.0-beta"⟩ (by decide)).1
    "alpha" "beta" rfl rfl

/-- C3: the claim says identification is total over well-formed mappings and
treats a missing `properties` sub-mapping as non-matching; the code instead
raises `KeyError('properties')` on the well-formed ITEM document
`{"assets": {}}` (the datacube heuristic subscripts `d['properties']`
unguarded). -/
theorem C3_item_without_properties_raises :
    identify_stac_object [("assets", JSON.obj [])] =
      .error (.keyError "properties") := rfl

/-- C4 (counterexample): a mapping with an `extent` field on which
`identify_stac_object_type` does not return COLLECTION but raises: the dead
pre-1.0 branch evaluates `json_dict['stac_version'].startswith('0')` on a
non-string value. -/
theorem C4_counterexample :
    identify_stac_object_type
      [("type", JSON.str "FeatureCollection"), ("stac_version", JSON.num 0),
       ("extent", JSON.obj [])] =
      .error (.attributeError "startswith") ∧
    containsKey
      [("type", JSON.str "FeatureCollection"), ("stac_version", JSON.num 0),
       ("extent", JSON.obj [])] "extent" = true :=
  ⟨rfl, rfl⟩

/-- C4 (amended): for every mapping whose `stac_version` value, if present,
is a string, `identify_stac_object_type` returns COLLECTION when `extent` is
present, else ITEM when `assets` is present, else CATALOG; and on every
mapping it never returns ITEMCOLLECTION (the pre-1.0 FeatureCollection
branch is shadowed by the later assignments — on other mappings it can only
raise instead of returning). -/
theorem C4_object_type_rules (d : JObj) :
    ((∀ v, lookupKey d "stac_version" = some v → ∃ s, v = JSON.str s) →
      identify_stac_object_type d =
        .ok (if containsKey d "extent" then some STACObjectType.COLLECTION
          else if containsKey d "assets" then some STACObjectType.ITEM
          else some STACObjectType.CATALOG)) ∧
    (∀ r, identify_stac_object_type d = .ok r →
      r ≠ some STACObjectType.ITEMCOLLECTION) :=
  ⟨identify_type_eval d, identify_type_ne_itemcollection d⟩

/-- C4 (witness): the type rules at a concrete extent-bearing document. -/
theorem C4_object_type_rules_witness :
    identify_stac_object_type [("extent", JSON.obj [])] =
      .ok (if containsKey [("extent", JSON.obj [])] "extent" then
          some STACObjectType.COLLECTION
        else if containsKey [("extent", JSON.obj [])] "assets" then
          some STACObjectType.ITEM
        else some STACObjectType.CATALOG) :=
  (C4_object_type_rules [("extent", JSON.obj [])]).1
    (fun v hv => by
      rw [show lookupKey [("extent", JSON.obj [])] "stac_version" =
        (none : Option JSON) from rfl] at hv
      exact Option.noConfusion hv)

/-- C5 (counterexample): a document whose `stac_extensions` FIELD is present
(with a null value) on which the structural inference nevertheless runs and
detects the `eo` extension — the code guards on `get('stac_extensions') is
None`, not on field absence. -/
theorem C5_counterexample :
    containsKey
      [("stac_extensions", JSON.null), ("assets", JSON.obj []),
       ("properties", JSON.obj [("eo:bands", JSON.arr [])])]
      "stac_extensions" = true ∧
    identify_stac_object
      [("stac_extensions", JSON.null), ("assets", JSON.obj []),
       ("properties", JSON.obj [("eo:bands", JSON.arr [])])] =
      .ok ⟨some STACObjectType.ITEM, ⟨⟨"0.4.0"⟩, ⟨"0.7.0"⟩⟩, ["eo"], []⟩ :=
  ⟨rfl, rfl⟩

/-- C5 (amended): when the `stac_extensions` LOOKUP yields None (field
absent or null-valued), structural inference runs precisely when the
post-version-phase range's upper bound is before "0.8.0": the ITEMCOLLECTION
disjunct of the guard is vacuous because the object type is never
ITEMCOLLECTION.  When the guard fails the returned extension lists are
empty; when it holds they are the split of the structural inference's
result. -/
theorem C5_inference_guard (d : JObj) (ot : Option STACObjectType)
    (vr0 : STACVersionRange) (desc : STACJSONDescription)
    (hot : identify_stac_object_type d = .ok ot)
    (hvp : version_phase ot d = .ok vr0)
    (hext : dictGet d "stac_extensions" = JSON.null)
    (hid : identify_stac_object d = .ok desc) :
    ot ≠ some STACObjectType.ITEMCOLLECTION ∧
    (vr0.is_earlier_than ⟨"0.8.0"⟩ = false →
      desc.common_extensions = [] ∧ desc.custom_extensions = []) ∧
    (vr0.is_earlier_than ⟨"0.8.0"⟩ = true →
      ∀ exts vr1, identify_stac_extensions ot d vr0 = .ok (exts, vr1) →
        (desc.common_extensions, desc.custom_extensions) = splitPure exts) := by
  have hne := identify_type_ne_itemcollection d ot hot
  refine ⟨hne, ?_, ?_⟩
  · intro hnot
    have hep := extensions_phase_skip ot d vr0 hext hne hnot
    unfold identify_stac_object at hid
    rw [hot, ebind_ok, hvp, ebind_ok, hep, ebind_ok] at hid
    dsimp only at hid
    cases h4 : final_checks_phase d vr0 with
    | error e => rw [h4] at hid; simp [ebind_err] at hid
    | ok vr3 =>
      rw [h4, ebind_ok] at hid
      rw [show split_extensions (JSON.arr []) =
        .ok (([], []) : List String × List String) from rfl, ebind_ok] at hid
      dsimp only at hid
      simp only [pure, Except.pure, Except.ok.injEq] at hid
      subst hid
      exact ⟨rfl, rfl⟩
  · intro hearly exts vr1 hinf
    have hep := extensions_phase_run ot d vr0 exts vr1 hext hearly hinf
    unfold identify_stac_object at hid
    rw [hot, ebind_ok, hvp, ebind_ok, hep, ebind_ok] at hid
    dsimp only at hid
    cases h4 : final_checks_phase d vr1 with
    | error e => rw [h4] at hid; simp [ebind_err] at hid
    | ok vr3 =>
      rw [h4, ebind_ok] at hid
      rw [split_extensions_str exts, ebind_ok] at hid
      cases hsp : splitPure exts with
      | mk ce cu =>
        rw [hsp] at hid
        dsimp only at hid
        simp only [pure, Except.pure, Except.ok.injEq] at hid
        subst hid
        rfl

/-- C5 (witness): the guard facts at a concrete ITEM document whose range is
earlier than "0.8.0", where inference runs and returns no extensions. -/
theorem C5_inference_guard_witness :
    some STACObjectType.ITEM ≠ some STACObjectType.ITEMCOLLECTION ∧
    ((⟨⟨"0.4.0"⟩, ⟨"0.7.0"⟩⟩ : STACVersionRange).is_earlier_than ⟨"0.8.0"⟩ = false →
      (STACJSONDescription.mk (some STACObjectType.ITEM)
        ⟨⟨"0.4.0"⟩, ⟨"0.7.0"⟩⟩ [] []).common_extensions = [] ∧
      (STACJSONDescription.mk (some STACObjectType.ITEM)
        ⟨⟨"0.4.0"⟩, ⟨"0.7.0"⟩⟩ [] []).custom_extensions = []) ∧
    ((⟨⟨"0.4.0"⟩, ⟨"0.7.0"⟩⟩ : STACVersionRange).is_earlier_than ⟨"0.8.0"⟩ = true →
      ∀ exts vr1, identify_stac_extensions (some STACObjectType.ITEM)
          [("assets", JSON.obj []), ("properties", JSON.obj [])]
          ⟨⟨"0.4.0"⟩, ⟨"0.7.0"⟩⟩ = .ok (exts, vr1) →
        ((STACJSONDescription.mk (some STACObjectType.ITEM)
            ⟨⟨"0.4.0"⟩, ⟨"0.7.0"⟩⟩ [] []).common_extensions,
         (STACJSONDescription.mk (some STACObjectType.ITEM)
            ⟨⟨"0.4.0"⟩, ⟨"0.7.0"⟩⟩ [] []).custom_extensions) = splitPure exts) :=
  C5_inference_guard [("assets", JSON.obj []), ("properties", JSON.obj [])]
    (some STACObjectType.ITEM) ⟨⟨"0.4.0"⟩, ⟨"0.7.0"⟩⟩
    (STACJSONDescription.mk (some STACObjectType.ITEM)
      ⟨⟨"0.4.0"⟩, ⟨"0.7.0"⟩⟩ [] []) rfl rfl rfl rfl

/-- C6 (counterexample): three concrete deviations from the claim: a
declared "0.0.1" is clamped to the floor "0.4.0", not pinned; a PRESENT but
null `stac_extensions` field does not raise the minimum to "0.8.0"; and a
non-string declared version raises instead of pinning. -/
theorem C6_counterexample :
    identify_stac_object
      [("stac_version", JSON.str "0.0.1"), ("assets", JSON.obj []),
       ("properties", JSON.obj [])] =
      .ok ⟨some STACObjectType.ITEM, ⟨⟨"0.4.0"⟩, ⟨"0.4.0"⟩⟩, [], []⟩ ∧
    (containsKey
      [("stac_extensions", JSON.null), ("assets", JSON.obj []),
       ("properties", JSON.obj [])] "stac_extensions" = true ∧
     identify_stac_object
      [("stac_extensions", JSON.null), ("assets", JSON.obj []),
       ("properties", JSON.obj [])] =
      .ok ⟨some STACObjectType.ITEM, ⟨⟨"0.4.0"⟩, ⟨"0.7.0"⟩⟩, [], []⟩) ∧
    version_phase (some STACObjectType.ITEM) [("stac_version", JSON.num 9)] =
      .error (.attributeError "version_core") :=
  ⟨rfl, ⟨rfl, rfl⟩, rfl⟩

/-- C6 (amended): the version phase pins the range to the declared STRING
value clamped into the initial interval [min "0.4.0", max default]
(whatever `stac_extensions` holds — `set_min` cannot move a pinned range);
with no declared version and a None `stac_extensions` lookup the default
bounds depend on the object type; a non-null `stac_extensions` value raises
the minimum to "0.8.0" clamped at the current maximum; and a declared value
that is neither null nor a string raises an AttributeError. -/
theorem C6_version_phase_rules (ot : Option STACObjectType) (d : JObj) :
    (∀ s, dictGet d "stac_version" = JSON.str s →
      version_phase ot d =
        .ok ⟨STACVersionRange.initial.clamp ⟨s⟩,
             STACVersionRange.initial.clamp ⟨s⟩⟩) ∧
    (dictGet d "stac_version" = JSON.null →
      dictGet d "stac_extensions" = JSON.null →
      version_phase ot d =
        .ok (if ot = some STACObjectType.CATALOG ∨
                ot = some STACObjectType.COLLECTION then
              ⟨⟨"0.4.0"⟩, ⟨"0.5.2"⟩⟩
            else if ot = some STACObjectType.ITEM then
              ⟨⟨"0.4.0"⟩, ⟨"0.7.0"⟩⟩
            else
              ⟨⟨"0.8.0"⟩, ⟨DEFAULT_STAC_VERSION⟩⟩)) ∧
    (dictGet d "stac_version" = JSON.null →
      isNull (dictGet d "stac_extensions") = false →
      version_phase ot d =
        .ok (if ot = some STACObjectType.CATALOG ∨
                ot = some STACObjectType.COLLECTION then
              ⟨⟨"0.5.2"⟩, ⟨"0.5.2"⟩⟩
            else if ot = some STACObjectType.ITEM then
              ⟨⟨"0.7.0"⟩, ⟨"0.7.0"⟩⟩
            else
              ⟨⟨"0.8.0"⟩, ⟨DEFAULT_STAC_VERSION⟩⟩)) ∧
    (∀ v, dictGet d "stac_version" = v → isNull v = false →
      (∀ s, v ≠ JSON.str s) →
      version_phase ot d = .error (.attributeError "version_core")) :=
  ⟨fun s hs => version_phase_pinned ot d s hs,
   fun h1 h2 => version_phase_default ot d h1 h2,
   fun h1 h2 => version_phase_default_ext ot d h1 h2,
   fun v h1 h2 h3 => version_phase_nonstring ot d v h1 h2 h3⟩

/-- C6 (witness): the pinning rule at a concrete in-range declared value. -/
theorem C6_version_phase_rules_witness :
    version_phase (some STACObjectType.ITEM)
      [("stac_version", JSON.str "0.9.0")] =
      .ok ⟨STACVersionRange.initial.clamp ⟨"0.9.0"⟩,
           STACVersionRange.initial.clamp ⟨"0.9.0"⟩⟩ :=
  (C6_version_phase_rules (some STACObjectType.ITEM)
    [("stac_version", JSON.str "0.9.0")]).1 "0.9.0" rfl

/-- C7: on a range satisfying `min_version <= max_version`, each single call
to `set_min`, `set_max`, or `set_to_single` preserves the invariant, never
lowers the minimum, and never raises the maximum (the interval only shrinks
or stays unchanged, with silent clamping at the opposite bound). -/
theorem C7_single_call_narrowing (r : STACVersionRange) (v : STACVersionID)
    (h : r.min_version.ble r.max_version = true) :
    ((r.set_min v).min_version.ble (r.set_min v).max_version = true ∧
     r.min_version.ble (r.set_min v).min_version = true ∧
     (r.set_min v).max_version.ble r.max_version = true) ∧
    ((r.set_max v).min_version.ble (r.set_max v).max_version = true ∧
     r.min_version.ble (r.set_max v).min_version = true ∧
     (r.set_max v).max_version.ble r.max_version = true) ∧
    ((r.set_to_single v).min_version.ble (r.set_to_single v).max_version = true ∧
     r.min_version.ble (r.set_to_single v).min_version = true ∧
     (r.set_to_single v).max_version.ble r.max_version = true) := by
  have hok : r.ok := STACVersionID.ble_iff_le.mp h
  obtain ⟨ha1, ha2, ha3⟩ :=
    And.intro (STACVersionRange.set_min_ok v hok).1
      (STACVersionRange.set_min_ok v hok).2
  obtain ⟨hb1, hb2, hb3⟩ :=
    And.intro (STACVersionRange.set_max_ok v hok).1
      (STACVersionRange.set_max_ok v hok).2
  obtain ⟨hc1, hc2, hc3⟩ :=
    And.intro (STACVersionRange.set_to_single_ok v hok).1
      (STACVersionRange.set_to_single_ok v hok).2
  exact ⟨⟨STACVersionID.ble_iff_le.mpr ha1, STACVersionID.ble_iff_le.mpr ha2,
      STACVersionID.ble_iff_le.mpr ha3⟩,
    ⟨STACVersionID.ble_iff_le.mpr hb1, STACVersionID.ble_iff_le.mpr hb2,
      STACVersionID.ble_iff_le.mpr hb3⟩,
    ⟨STACVersionID.ble_iff_le.mpr hc1, STACVersionID.ble_iff_le.mpr hc2,
      STACVersionID.ble_iff_le.mpr hc3⟩⟩

/-- C7 (witness): the narrowing facts at a concrete range and version. -/
theorem C7_single_call_narrowing_witness :
    ((STACVersionRange.initial.set_min ⟨"0.6.0"⟩).min_version.ble
        (STACVersionRange.initial.set_min ⟨"0.6.0"⟩).max_version = true ∧
     STACVersionRange.initial.min_version.ble
        (STACVersionRange.initial.set_min ⟨"0.6.0"⟩).min_version = true ∧
     (STACVersionRange.initial.set_min ⟨"0.6.0"⟩).max_version.ble
        STACVersionRange.initial.max_version = true) ∧
    ((STACVersionRange.initial.set_max ⟨"0.6.0"⟩).min_version.ble
        (STACVersionRange.initial.set_max ⟨"0.6.0"⟩).max_version = true ∧
     STACVersionRange.initial.min_version.ble
        (STACVersionRange.initial.set_max ⟨"0.6.0"⟩).min_version = true ∧
     (STACVersionRange.initial.set_max ⟨"0.6.0"⟩).max_version.ble
        STACVersionRange.initial.max_version = true) ∧
    ((STACVersionRange.initial.set_to_single ⟨"0.6.0"⟩).min_version.ble
        (STACVersionRange.initial.set_to_single ⟨"0.6.0"⟩).max_version = true ∧
     STACVersionRange.initial.min_version.ble
        (STACVersionRange.initial.set_to_single ⟨"0.6.0"⟩).min_version = true ∧
     (STACVersionRange.initial.set_to_single ⟨"0.6.0"⟩).max_version.ble
        STACVersionRange.initial.max_version = true) :=
  C7_single_call_narrowing STACVersionRange.initial ⟨"0.6.0"⟩ (by decide)

/-- C8: the `STACVersionID` comparison is a strict total order: irreflexive,
transitive, and trichotomous against string equality (for any two version
strings exactly one of `a < b`, `a == b`, `b < a` holds — totality plus
mutual exclusion below); in particular
`STACVersionID("1.0.0-beta.2") < STACVersionID("1.0.0")`. -/
theorem C8_strict_total_order (a b c : STACVersionID) :
    a.blt a = false ∧
    (a.blt b = true → b.blt c = true → a.blt c = true) ∧
    (a.blt b = true ∨ a = b ∨ b.blt a = true) ∧
    (a.blt b = true → a ≠ b) ∧
    (a.blt b = true → b.blt a = false) ∧
    (a = b → a.blt b = false) ∧
    STACVersionID.blt ⟨"1.0.0-beta.2"⟩ ⟨"1.0.0"⟩ = true := by
  refine ⟨a.blt_irrefl, fun h1 h2 => STACVersionID.blt_trans h1 h2, ?_, ?_,
    fun h => STACVersionID.blt_asymm h, ?_, rfl⟩
  · cases h1 : a.blt b with
    | true => exact .inl rfl
    | false =>
      cases h2 : b.blt a with
      | true => exact .inr (.inr rfl)
      | false => exact .inr (.inl (STACVersionID.blt_conn h1 h2))
  · intro h1 heq
    subst heq
    rw [a.blt_irrefl] at h1
    exact Bool.noConfusion h1
  · intro heq
    subst heq
    exact a.blt_irrefl

/-- C8 (witness): transitivity applied at concrete versions. -/
theorem C8_strict_total_order_witness :
    STACVersionID.blt ⟨"0.4.0"⟩ ⟨"0.8.0"⟩ = true :=
  (C8_strict_total_order ⟨"0.4.0"⟩ ⟨"0.6.2"⟩ ⟨"0.8.0"⟩).2.1 (by decide)
    (by decide)

/-- C9: the document `{"assets": {}, "properties": {"eo:bands": []},
"eo:bands": []}` with no declared version and no `stac_extensions` field is
identified as an ITEM with the `eo` common extension, and its range's
maximum is (at most) "0.5.2", forced by the top-level `eo:bands` field. -/
theorem C9_eo_bands_scenario :
    identify_stac_object
      [("assets", JSON.obj []),
       ("properties", JSON.obj [("eo:bands", JSON.arr [])]),
       ("eo:bands", JSON.arr [])] =
      .ok ⟨some STACObjectType.ITEM, ⟨⟨"0.4.0"⟩, ⟨"0.5.2"⟩⟩, ["eo"], []⟩ ∧
    (["eo"] : List String).contains "eo" = true ∧
    STACVersionID.ble ⟨"0.5.2"⟩ ⟨"0.5.2"⟩ = true :=
  ⟨rfl, rfl, rfl⟩

/-- C10: whenever `identify_stac_object` returns, the result's range is a
sub-interval of the initial default interval: the minimum is at least
"0.4.0" and the maximum at most the default version constant. -/
theorem C10_result_range_within_initial (d : JObj)
    (desc : STACJSONDescription) (h : identify_stac_object d = .ok desc) :
    STACVersionID.ble ⟨"0.4.0"⟩ desc.version_range.min_version = true ∧
    desc.version_range.max_version.ble ⟨DEFAULT_STAC_VERSION⟩ = true := by
  have hos := identify_stac_object_shrink d desc h
  exact ⟨STACVersionID.ble_iff_le.mpr hos.2.1,
    STACVersionID.ble_iff_le.mpr hos.2.2⟩

/-- C10 (witness): the bounds at the empty document's result. -/
theorem C10_result_range_within_initial_witness :
    STACVersionID.ble ⟨"0.4.0"⟩
      (STACJSONDescription.mk (some STACObjectType.CATALOG)
        ⟨⟨"0.4.0"⟩, ⟨"0.5.2"⟩⟩ [] []).version_range.min_version = true ∧
    (STACJSONDescription.mk (some STACObjectType.CATALOG)
      ⟨⟨"0.4.0"⟩, ⟨"0.5.2"⟩⟩ [] []).version_range.max_version.ble
      ⟨DEFAULT_STAC_VERSION⟩ = true :=
  C10_result_range_within_initial []
    (STACJSONDescription.mk (some STACObjectType.CATALOG)
      ⟨⟨"0.4.0"⟩, ⟨"0.5.2"⟩⟩ [] []) rfl
